import Mathlib

/-!
Verification development for the CineFIBO repository (a Next.js frontend in
src/frontend/src/app/page.tsx driving a FastAPI backend that is not part of
the sources; the backend components are modelled from the specification where
needed).  The development shallowly embeds:

* a JSON value type with a stringifier and parser modelling the platform
  JSON.stringify / JSON.parse pair used by the localStorage persistence
  helpers (restricted to integral numerals; float formatting is out of scope),
* the localStorage key-value store and the saveProjectsToStorage /
  loadProjectsFromStorage helpers,
* the storyboard project state operations deleteProject, addShotToProject,
  updateShotInProject and removeShotFromProject,
* the moderation-aware error classifier handleFiboError,
* the coverageNumShots clamping from the number input's onChange handler,
* the Coherence Merger, Coverage Planner and Coverage Executor, modelled from
  the specification because the backend code is absent from the sources.
-/

/-! ### Character helpers -/

/-- Left curly brace character, written via its code point. -/
def lcurl : Char := Char.ofNat 123

/-- Right curly brace character, written via its code point. -/
def rcurl : Char := Char.ofNat 125

/-- Decimal digit test on characters. -/
def isDigitChar (c : Char) : Bool := decide ('0' ≤ c) && decide (c ≤ '9')

/-- Numeric value of a decimal digit character. -/
def digitVal (c : Char) : Nat := c.toNat - 48

/-- Character for a decimal digit. -/
def digitChar (d : Nat) : Char := Char.ofNat (48 + d)

/-- Lowercase hexadecimal digit character, as emitted by JSON.stringify in
unicode escapes. -/
def hexCharOfDigit (d : Nat) : Char :=
  if d < 10 then Char.ofNat (48 + d) else Char.ofNat (87 + d)

/-- Numeric value of a lowercase hexadecimal digit character. -/
def hexVal (c : Char) : Nat :=
  if isDigitChar c then c.toNat - 48 else c.toNat - 87

/-- ASCII lowercasing of one character, modelling String.prototype.toLowerCase
on the ASCII range (the moderation signal searched for is ASCII). -/
def lowerChar (c : Char) : Char :=
  if decide ('A' ≤ c) && decide (c ≤ 'Z') then Char.ofNat (c.toNat + 32) else c

/-- ASCII lowercasing of a character list. -/
def lowerChars (cs : List Char) : List Char := cs.map lowerChar

/-- Whether the pattern is a prefix of the text, on character lists. -/
def beginsWith : List Char → List Char → Bool
  | [], _ => true
  | _ :: _, [] => false
  | p :: ps, c :: cs => if p = c then beginsWith ps cs else false

/-- Substring containment on character lists, modelling
String.prototype.includes. -/
def containsChars : List Char → List Char → Bool
  | _, [] => false
  | pat, c :: cs => if beginsWith pat (c :: cs) then true else containsChars pat cs

/-- Substring containment where the empty pattern is always found, matching
String.prototype.includes. -/
def includesChars (pat text : List Char) : Bool :=
  if pat = [] then true else containsChars pat text

/-- Whether a string is empty after trimming: equivalently, every character is
whitespace. -/
def trimEmpty (s : String) : Bool := s.data.all Char.isWhitespace

/-! ### JSON values

The platform JSON.stringify / JSON.parse pair is modelled over a JSON value
type restricted to integral numerals.  Arrays and objects are represented by
mutually inductive list types so that structural induction is available. -/

mutual
/-- A JSON value. -/
inductive Json where
  | null : Json
  | bool : Bool → Json
  | num : Int → Json
  | str : String → Json
  | arr : JsonList → Json
  | obj : JsonFields → Json

/-- A list of JSON array elements. -/
inductive JsonList where
  | nil : JsonList
  | cons : Json → JsonList → JsonList

/-- A list of JSON object members, keeping the insertion order that
JSON.stringify serializes. -/
inductive JsonFields where
  | nil : JsonFields
  | cons : String → Json → JsonFields → JsonFields
end

/-- Escape one character the way JSON.stringify does inside string literals. -/
def escapeChar (c : Char) : List Char :=
  if c = '"' then ['\\', '"']
  else if c = '\\' then ['\\', '\\']
  else if c = '\n' then ['\\', 'n']
  else if c = '\r' then ['\\', 'r']
  else if c = '\t' then ['\\', 't']
  else if c.toNat = 8 then ['\\', 'b']
  else if c.toNat = 12 then ['\\', 'f']
  else if c.toNat < 32 then
    '\\' :: 'u' :: ('0' :: '0' :: [hexCharOfDigit (c.toNat / 16)])
      ++ [hexCharOfDigit (c.toNat % 16)]
  else [c]

/-- Escape a character list for a JSON string literal. -/
def escapeChars : List Char → List Char
  | [] => []
  | c :: cs => escapeChar c ++ escapeChars cs

/-- Render a JSON string literal, quotes included. -/
def renderString (s : String) : List Char := '"' :: (escapeChars s.data ++ ['"'])

/-- Little-endian decimal digit characters of a natural number, with fuel for
structural termination. -/
def natDigitsRev : Nat → Nat → List Char
  | 0, _ => []
  | _ + 1, 0 => []
  | fuel + 1, n + 1 => digitChar ((n + 1) % 10) :: natDigitsRev fuel ((n + 1) / 10)

/-- Decimal rendering of a natural number. -/
def renderNat (n : Nat) : List Char :=
  if n = 0 then ['0'] else (natDigitsRev n n).reverse

/-- Decimal rendering of an integer, matching JSON.stringify on integral
numbers. -/
def renderInt : Int → List Char
  | Int.ofNat m => renderNat m
  | Int.negSucc m => '-' :: renderNat (m + 1)

mutual
/-- Render a JSON value to characters exactly as JSON.stringify with no
indentation argument would. -/
def renderJson : Json → List Char
  | .null => "null".data
  | .bool true => "true".data
  | .bool false => "false".data
  | .num n => renderInt n
  | .str s => renderString s
  | .arr .nil => ['[', ']']
  | .arr (.cons x xs) => '[' :: (renderJson x ++ renderArrTail xs)
  | .obj .nil => [lcurl, rcurl]
  | .obj (.cons k v fs) =>
      lcurl :: (renderString k ++ ':' :: (renderJson v ++ renderFieldsTail fs))

/-- Render the remaining elements of a JSON array after the first one. -/
def renderArrTail : JsonList → List Char
  | .nil => [']']
  | .cons x xs => ',' :: (renderJson x ++ renderArrTail xs)

/-- Render the remaining members of a JSON object after the first one. -/
def renderFieldsTail : JsonFields → List Char
  | .nil => [rcurl]
  | .cons k v fs => ',' :: (renderString k ++ ':' :: (renderJson v ++ renderFieldsTail fs))
end

/-- JSON.stringify on the modelled JSON values. -/
def stringifyJson (j : Json) : String := String.mk (renderJson j)

/-- Read a run of decimal digit characters. -/
def takeDigits : List Char → (List Char × List Char)
  | [] => ([], [])
  | c :: cs =>
    if isDigitChar c then
      let r := takeDigits cs
      (c :: r.1, r.2)
    else ([], c :: cs)

/-- Value of a big-endian run of decimal digit characters. -/
def digitsToNat (ds : List Char) : Nat :=
  ds.foldl (fun a c => a * 10 + digitVal c) 0

/-- Unescape a single-character JSON escape (the shorthand escapes emitted by
JSON.stringify). -/
def unescapeChar (e : Char) : Option Char :=
  if e = '"' then some '"'
  else if e = '\\' then some '\\'
  else if e = 'n' then some '\n'
  else if e = 'r' then some '\r'
  else if e = 't' then some '\t'
  else if e = 'b' then some (Char.ofNat 8)
  else if e = 'f' then some (Char.ofNat 12)
  else none

/-- The character denoted by a four-digit unicode escape. -/
def hexQuad (h1 h2 h3 h4 : Char) : Char :=
  Char.ofNat (hexVal h1 * 4096 + hexVal h2 * 256 + hexVal h3 * 16 + hexVal h4)

/-- One step of string-body parsing for a unicode escape: four hex digits then
the rest of the body. -/
def psbUnicode (rec : List Char → Option (List Char × List Char)) :
    List Char → Option (List Char × List Char)
  | h1 :: h2 :: h3 :: h4 :: cs4 =>
    (rec cs4).map (fun r => (hexQuad h1 h2 h3 h4 :: r.1, r.2))
  | _ => none

/-- One step of string-body parsing for a shorthand escape. -/
def psbShort (rec : List Char → Option (List Char × List Char)) (e : Char)
    (cs3 : List Char) : Option (List Char × List Char) :=
  match unescapeChar e with
  | some u => (rec cs3).map (fun r => (u :: r.1, r.2))
  | none => none

/-- One step of string-body parsing after a backslash. -/
def psbEscape (rec : List Char → Option (List Char × List Char)) :
    List Char → Option (List Char × List Char)
  | [] => none
  | e :: cs3 => if e = 'u' then psbUnicode rec cs3 else psbShort rec e cs3

/-- One step of string-body parsing on the next character. -/
def psbCons (rec : List Char → Option (List Char × List Char)) (c : Char)
    (cs2 : List Char) : Option (List Char × List Char) :=
  if c = '"' then some ([], cs2)
  else if c = '\\' then psbEscape rec cs2
  else (rec cs2).map (fun r => (c :: r.1, r.2))

/-- Parse the body of a JSON string literal after the opening quote, returning
the unescaped characters and the input after the closing quote.  Fuel bounds
the number of produced characters. -/
def parseStringBody : Nat → List Char → Option (List Char × List Char)
  | 0, _ => none
  | _ + 1, [] => none
  | fuel + 1, c :: cs2 => psbCons (parseStringBody fuel) c cs2

/-- Parse the tail of the keyword null. -/
def pvNull : List Char → Option (Json × List Char)
  | 'u' :: 'l' :: 'l' :: r => some (.null, r)
  | _ => none

/-- Parse the tail of the keyword true. -/
def pvTrue : List Char → Option (Json × List Char)
  | 'r' :: 'u' :: 'e' :: r => some (.bool true, r)
  | _ => none

/-- Parse the tail of the keyword false. -/
def pvFalse : List Char → Option (Json × List Char)
  | 'a' :: 'l' :: 's' :: 'e' :: r => some (.bool false, r)
  | _ => none

/-- Parse a string value after its opening quote. -/
def pvString (rest : List Char) : Option (Json × List Char) :=
  (parseStringBody rest.length rest).map (fun sr => (Json.str (String.mk sr.1), sr.2))

/-- Parse the digits of a negative numeral after the minus sign. -/
def pvNeg (rest : List Char) : Option (Json × List Char) :=
  match takeDigits rest with
  | ([], _) => none
  | (ds, r) => some (.num (-(Int.ofNat (digitsToNat ds))), r)

/-- Parse a numeral starting at a digit character. -/
def pvNum (c : Char) (rest : List Char) : Option (Json × List Char) :=
  match takeDigits (c :: rest) with
  | (ds, r) => some (.num (Int.ofNat (digitsToNat ds)), r)

/-- Parse the elements of a non-empty array, wrapping them as a value. -/
def pvArrNE (pItems : List Char → Option (JsonList × List Char)) (cs : List Char) :
    Option (Json × List Char) :=
  match pItems cs with
  | some (xs, r2) => some (.arr xs, r2)
  | none => none

/-- Parse an array after its opening bracket. -/
def pvArr (pItems : List Char → Option (JsonList × List Char)) :
    List Char → Option (Json × List Char)
  | [] => none
  | d :: r => if d = ']' then some (.arr .nil, r) else pvArrNE pItems (d :: r)

/-- Parse the members of a non-empty object, wrapping them as a value. -/
def pvObjNE (pMembers : List Char → Option (JsonFields × List Char)) (cs : List Char) :
    Option (Json × List Char) :=
  match pMembers cs with
  | some (fs, r2) => some (.obj fs, r2)
  | none => none

/-- Parse an object after its opening brace. -/
def pvObj (pMembers : List Char → Option (JsonFields × List Char)) :
    List Char → Option (Json × List Char)
  | [] => none
  | d :: r => if d = rcurl then some (.obj .nil, r) else pvObjNE pMembers (d :: r)

/-- One step of value parsing dispatched on the leading character. -/
def parseValStep (pItems : List Char → Option (JsonList × List Char))
    (pMembers : List Char → Option (JsonFields × List Char))
    (c : Char) (rest : List Char) : Option (Json × List Char) :=
  if c = 'n' then pvNull rest
  else if c = 't' then pvTrue rest
  else if c = 'f' then pvFalse rest
  else if c = '"' then pvString rest
  else if c = '-' then pvNeg rest
  else if isDigitChar c then pvNum c rest
  else if c = '[' then pvArr pItems rest
  else if c = lcurl then pvObj pMembers rest
  else none

/-- Array-element parsing after one parsed element: a comma and more elements,
or the closing bracket. -/
def piAfterVal (pItems : List Char → Option (JsonList × List Char)) (x : Json) :
    List Char → Option (JsonList × List Char)
  | [] => none
  | d :: r2 =>
    if d = ',' then
      match pItems r2 with
      | some (xs, r3) => some (.cons x xs, r3)
      | none => none
    else if d = ']' then some (.cons x .nil, r2)
    else none

/-- One step of array-element parsing: one value, then its continuation. -/
def parseItemsStep (pv : List Char → Option (Json × List Char))
    (pItems : List Char → Option (JsonList × List Char)) (cs : List Char) :
    Option (JsonList × List Char) :=
  match pv cs with
  | none => none
  | some (x, r) => piAfterVal pItems x r

/-- Object-member parsing after a parsed key, value and the following
delimiter: a comma and more members, or the closing brace. -/
def pmAfterVal (pMembers : List Char → Option (JsonFields × List Char))
    (k : List Char) (v : Json) : List Char → Option (JsonFields × List Char)
  | [] => none
  | d2 :: r4 =>
    if d2 = ',' then
      match pMembers r4 with
      | some (fs, r5) => some (.cons (String.mk k) v fs, r5)
      | none => none
    else if d2 = rcurl then some (.cons (String.mk k) v .nil, r4)
    else none

/-- Object-member parsing after a parsed key and its colon: one value, then
its continuation. -/
def pmAfterColon (pv : List Char → Option (Json × List Char))
    (pMembers : List Char → Option (JsonFields × List Char))
    (k : List Char) (r2 : List Char) : Option (JsonFields × List Char) :=
  match pv r2 with
  | none => none
  | some (v, r3) => pmAfterVal pMembers k v r3

/-- Object-member parsing after a parsed key: a colon, then the value. -/
def pmAfterKey (pv : List Char → Option (Json × List Char))
    (pMembers : List Char → Option (JsonFields × List Char))
    (k : List Char) : List Char → Option (JsonFields × List Char)
  | [] => none
  | d :: r2 => if d = ':' then pmAfterColon pv pMembers k r2 else none

/-- Object-member parsing at a key: the quoted key string, then its
continuation. -/
def pmKey (pv : List Char → Option (Json × List Char))
    (pMembers : List Char → Option (JsonFields × List Char))
    (cs1 : List Char) : Option (JsonFields × List Char) :=
  match parseStringBody cs1.length cs1 with
  | none => none
  | some (k, r) => pmAfterKey pv pMembers k r

/-- One step of object-member parsing. -/
def parseMembersStep (pv : List Char → Option (Json × List Char))
    (pMembers : List Char → Option (JsonFields × List Char)) :
    List Char → Option (JsonFields × List Char)
  | [] => none
  | c :: cs1 => if c = '"' then pmKey pv pMembers cs1 else none

mutual
/-- Parse one JSON value, with fuel for termination.  Models JSON.parse on
texts with no inter-token whitespace, which is all JSON.stringify emits. -/
def parseVal : Nat → List Char → Option (Json × List Char)
  | 0, _ => none
  | _ + 1, [] => none
  | fuel + 1, c :: rest => parseValStep (parseItems fuel) (parseMembers fuel) c rest

/-- Parse the elements of a non-empty JSON array after the opening bracket. -/
def parseItems : Nat → List Char → Option (JsonList × List Char)
  | 0, _ => none
  | fuel + 1, cs => parseItemsStep (parseVal fuel) (parseItems fuel) cs

/-- Parse the members of a non-empty JSON object after the opening brace. -/
def parseMembers : Nat → List Char → Option (JsonFields × List Char)
  | 0, _ => none
  | fuel + 1, cs => parseMembersStep (parseVal fuel) (parseMembers fuel) cs
end

/-- JSON.parse on the modelled JSON values: parse one value and require the
whole input to be consumed. -/
def parseJson (s : String) : Option Json :=
  match parseVal (s.data.length + 1) s.data with
  | some (j, []) => some j
  | _ => none

mutual
/-- Fuel sufficient for parseVal to parse a rendered value. -/
def jsonFuel : Json → Nat
  | .arr xs => 1 + jsonListFuel xs
  | .obj fs => 1 + jsonFieldsFuel fs
  | _ => 1

/-- Fuel sufficient for parseItems to parse rendered array elements. -/
def jsonListFuel : JsonList → Nat
  | .nil => 0
  | .cons x xs => 1 + jsonFuel x + jsonListFuel xs

/-- Fuel sufficient for parseMembers to parse rendered object members. -/
def jsonFieldsFuel : JsonFields → Nat
  | .nil => 0
  | .cons _ v fs => 1 + jsonFuel v + jsonFieldsFuel fs
end

/-! ### localStorage model and storyboard persistence

Models the persistence helpers at src/frontend/src/app/page.tsx lines 55-77:
the store is an association list in which setItem prepends (lookup takes the
first hit) and removeItem drops all entries for the key. -/

/-- The localStorage state: an association list from keys to string values. -/
abbrev Storage : Type := List (String × String)

/-- window.localStorage.getItem. -/
def lsGet (st : Storage) (k : String) : Option String :=
  match st with
  | [] => none
  | e :: rest => if e.1 = k then some e.2 else lsGet rest k

/-- window.localStorage.setItem. -/
def lsSet (st : Storage) (k v : String) : Storage := (k, v) :: st

/-- window.localStorage.removeItem. -/
def lsRemove (st : Storage) (k : String) : Storage :=
  st.filter (fun e => decide (e.1 ≠ k))

/-- The storage key for the saved storyboard projects (STORAGE_KEY). -/
def storageKey : String := "cinefibo-storyboards"

/-- The storage key for the active project id (ACTIVE_PROJECT_KEY). -/
def activeProjectKey : String := "cinefibo-active-project"

/-- A saved storyboard shot (type StoryboardShot): the generated image, the
structured prompt that produced it, and the render request identifier. -/
structure StoryboardShot where
  id : String
  shot_prompt : String
  image_url : String
  structured_prompt : Json
  createdAt : String
  request_id : String

/-- A storyboard project (type StoryboardProject): a named ordered sequence of
saved shots. -/
structure StoryboardProject where
  id : String
  name : String
  createdAt : String
  shots : List StoryboardShot

/-- Encode one storyboard shot as the JSON object JSON.stringify serializes,
with members in declaration order. -/
def encodeShot (s : StoryboardShot) : Json :=
  .obj (.cons "id" (.str s.id)
    (.cons "shot_prompt" (.str s.shot_prompt)
      (.cons "image_url" (.str s.image_url)
        (.cons "structured_prompt" s.structured_prompt
          (.cons "createdAt" (.str s.createdAt)
            (.cons "request_id" (.str s.request_id) .nil))))))

/-- Encode a list of storyboard shots as JSON array elements. -/
def encodeShots : List StoryboardShot → JsonList
  | [] => .nil
  | s :: rest => .cons (encodeShot s) (encodeShots rest)

/-- Encode one storyboard project as a JSON object. -/
def encodeProject (p : StoryboardProject) : Json :=
  .obj (.cons "id" (.str p.id)
    (.cons "name" (.str p.name)
      (.cons "createdAt" (.str p.createdAt)
        (.cons "shots" (.arr (encodeShots p.shots)) .nil))))

/-- Encode the elements of a project list. -/
def encodeProjectList : List StoryboardProject → JsonList
  | [] => .nil
  | p :: rest => .cons (encodeProject p) (encodeProjectList rest)

/-- Encode the full project list as the JSON array stored under storageKey. -/
def encodeProjects (ps : List StoryboardProject) : Json := .arr (encodeProjectList ps)

/-- Re-establish the StoryboardShot typing of a parsed JSON value (the source
casts the JSON.parse result to the static type). -/
def decodeShot : Json → Option StoryboardShot
  | .obj (.cons "id" (.str i)
      (.cons "shot_prompt" (.str sp)
        (.cons "image_url" (.str iu)
          (.cons "structured_prompt" spr
            (.cons "createdAt" (.str ca)
              (.cons "request_id" (.str ri) .nil)))))) =>
      some { id := i, shot_prompt := sp, image_url := iu,
             structured_prompt := spr, createdAt := ca, request_id := ri }
  | _ => none

/-- Decode a list of storyboard shots. -/
def decodeShots : JsonList → Option (List StoryboardShot)
  | .nil => some []
  | .cons s rest =>
    match decodeShot s, decodeShots rest with
    | some a, some l => some (a :: l)
    | _, _ => none

/-- Decode one storyboard project. -/
def decodeProject : Json → Option StoryboardProject
  | .obj (.cons "id" (.str i)
      (.cons "name" (.str n)
        (.cons "createdAt" (.str ca)
          (.cons "shots" (.arr shots) .nil)))) =>
      match decodeShots shots with
      | some l => some { id := i, name := n, createdAt := ca, shots := l }
      | none => none
  | _ => none

/-- Decode the elements of a project list. -/
def decodeProjectList : JsonList → Option (List StoryboardProject)
  | .nil => some []
  | .cons p rest =>
    match decodeProject p, decodeProjectList rest with
    | some a, some l => some (a :: l)
    | _, _ => none

/-- Decode the full project list. -/
def decodeProjects : Json → Option (List StoryboardProject)
  | .arr l => decodeProjectList l
  | _ => none

/-- saveProjectsToStorage (page.tsx lines 59-66): serialize the project list
and store it under storageKey. -/
def saveProjectsToStorage (projectsData : List StoryboardProject) (st : Storage) : Storage :=
  lsSet st storageKey (stringifyJson (encodeProjects projectsData))

/-- loadProjectsFromStorage (page.tsx lines 68-77): read the raw string under
storageKey, return none when absent or empty, otherwise parse it. -/
def loadProjectsFromStorage (st : Storage) : Option (List StoryboardProject) :=
  match lsGet st storageKey with
  | none => none
  | some raw =>
    if raw = "" then none
    else
      match parseJson raw with
      | some j => decodeProjects j
      | none => none

/-! ### Storyboard project state operations (page.tsx lines 187-242) -/

/-- The client state touched by deleteProject: the project list, the two
project selections, the open storyboard-shot overlay, and localStorage. -/
structure AppState where
  projects : List StoryboardProject
  activeProjectId : Option String
  storyboardsViewProjectId : Option String
  selectedStoryboardShot : Option StoryboardShot
  storage : Storage

/-- deleteProject (page.tsx lines 187-204): drop the project, clear either
selection only when it pointed at the deleted project, close the overlay, and
remove the persisted active-project key exactly when it stored this id. -/
def deleteProject (s : AppState) (projectId : String) : AppState :=
  { projects := s.projects.filter (fun p => decide (p.id ≠ projectId))
    activeProjectId :=
      if s.activeProjectId = some projectId then none else s.activeProjectId
    storyboardsViewProjectId :=
      if s.storyboardsViewProjectId = some projectId then none
      else s.storyboardsViewProjectId
    selectedStoryboardShot := none
    storage :=
      if lsGet s.storage activeProjectKey = some projectId then
        lsRemove s.storage activeProjectKey
      else s.storage }

/-- The project id targeted by addShotToProject: the explicit argument when
given and non-empty (the source tests projectId with a truthiness check, so an
empty string falls back), else the active project id. -/
def resolveTargetId (projectIdArg activeId : Option String) : Option String :=
  match projectIdArg with
  | some s => if s = "" then activeId else some s
  | none => activeId

/-- addShotToProject (page.tsx lines 206-214): append the shot to the shots of
the targeted project, leaving every other project untouched. -/
def addShotToProject (projects : List StoryboardProject) (activeId : Option String)
    (shot : StoryboardShot) (projectIdArg : Option String) : List StoryboardProject :=
  projects.map (fun p =>
    if some p.id = resolveTargetId projectIdArg activeId then
      { p with shots := p.shots ++ [shot] }
    else p)

/-- A partial shot update (type Partial of StoryboardShot): present fields
replace, absent fields keep the prior value. -/
structure ShotPatch where
  id : Option String
  shot_prompt : Option String
  image_url : Option String
  structured_prompt : Option Json
  createdAt : Option String
  request_id : Option String

/-- Object spread of a partial update over a shot. -/
def applyPatch (s : StoryboardShot) (u : ShotPatch) : StoryboardShot :=
  { id := u.id.getD s.id
    shot_prompt := u.shot_prompt.getD s.shot_prompt
    image_url := u.image_url.getD s.image_url
    structured_prompt := u.structured_prompt.getD s.structured_prompt
    createdAt := u.createdAt.getD s.createdAt
    request_id := u.request_id.getD s.request_id }

/-- updateShotInProject (page.tsx lines 216-232): in the project with the given
id, spread the partial update over the shot with the given id. -/
def updateShotInProject (projects : List StoryboardProject) (projectId shotId : String)
    (updated : ShotPatch) : List StoryboardProject :=
  projects.map (fun p =>
    if p.id ≠ projectId then p
    else
      { p with shots := p.shots.map (fun s =>
          if s.id = shotId then applyPatch s updated else s) })

/-- removeShotFromProject (page.tsx lines 234-242): in the project with the
given id, drop the shot with the given id. -/
def removeShotFromProject (projects : List StoryboardProject) (projectId shotId : String) :
    List StoryboardProject :=
  projects.map (fun p =>
    if p.id = projectId then
      { p with shots := p.shots.filter (fun s => decide (s.id ≠ shotId)) }
    else p)

/-! ### Moderation-aware error classification (page.tsx lines 154-165) -/

/-- The moderation rejection message thrown by handleFiboError. -/
def moderationMessage : String :=
  "FIBO blocked this request due to its content moderation rules. Try adjusting the scene text to be less sensitive."

/-- The generic backend failure message thrown by handleFiboError. -/
def backendErrorMessage (status : Nat) (text : String) : String :=
  "Backend error (" ++ toString status ++ "): " ++ text

/-- The moderation signal searched for in the lowercased response body. -/
def moderationSignal : String := "content moderation"

/-- Whether a response body carries the moderation signal: its lowercasing
includes the signal text. -/
def containsModerationSignal (text : String) : Bool :=
  includesChars moderationSignal.data (lowerChars text.data)

/-- handleFiboError: classify a failed response by status code and body,
producing the distinct moderation message exactly for 422 responses whose body
mentions content moderation, and the generic backend message otherwise. -/
def handleFiboError (status : Nat) (text : String) : String :=
  if status = 422 && containsModerationSignal text then moderationMessage
  else backendErrorMessage status text

/-! ### Coverage shot count clamping (page.tsx lines 1072-1086) -/

/-- The coverageNumShots onChange handler: a non-numeric input resets to the
default 6, a numeric input is clamped into 1..12. -/
def coverageNumShotsUpdate (parsed : Option Int) : Int :=
  match parsed with
  | none => 6
  | some n => min 12 (max 1 n)

/-- The clamp applied to an integral requested shot count. -/
def clampNumShots (n : Int) : Int := min 12 (max 1 n)

/-! ### Coherence Merger

Modelled from the spec: the merger runs in the FastAPI backend behind the
/api/shot/tune route and its code is not among the sources; sections 3, 4.1
and 7 of the specification define it.  The override request carries the four
sparse user fields; following section 4.1's precedence rule, direct lighting
overrides are also carried so that an explicit lighting value can win over the
mood-derived one. -/

/-- Camera parameters of a StructuredPrompt; every field is independently
optional. -/
structure CameraParams where
  angle : Option String
  lens_focal_length : Option String
  depth_of_field : Option String
  focus : Option String
deriving DecidableEq

/-- Lighting parameters of a StructuredPrompt. -/
structure LightingParams where
  conditions : Option String
  direction : Option String
  shadows : Option String
deriving DecidableEq

/-- Aesthetic parameters of a StructuredPrompt. -/
structure AestheticsParams where
  mood_atmosphere : Option String
  color_scheme : Option String
  aesthetic_score : Option Int
deriving DecidableEq

/-- The canonical structured description of a shot's visual parameters. -/
structure StructuredPrompt where
  camera : CameraParams
  lighting : LightingParams
  aesthetics : AestheticsParams
deriving DecidableEq

/-- An override request: a sparse set of user-chosen values, plus the direct
lighting overrides of section 4.1's precedence rule. -/
structure OverrideRequest where
  camera_angle : Option String
  lens_focal_length : Option String
  mood : Option String
  color_scheme : Option String
  lighting_conditions : Option String
  lighting_shadows : Option String

/-- The override request with every field unset. -/
def emptyOverride : OverrideRequest :=
  { camera_angle := none, lens_focal_length := none, mood := none,
    color_scheme := none, lighting_conditions := none, lighting_shadows := none }

/-- Accepted camera angle vocabulary (the UI-suggested set). -/
def angleVocab : List String := ["eye-level", "low-angle", "high-angle", "top-down"]

/-- Accepted lens vocabulary. -/
def lensVocab : List String := ["24mm wide-angle", "35mm", "50mm", "85mm close-up"]

/-- Accepted mood vocabulary. -/
def moodVocab : List String :=
  ["serene and cozy", "dramatic and tense", "bright and energetic", "melancholic and quiet"]

/-- Accepted color scheme vocabulary. -/
def colorVocab : List String :=
  ["warm, golden tones", "cool, bluish tones", "neutral, soft grays and beiges",
   "high-contrast, deep shadows"]

/-- Modelled from the spec: the fixed mood-to-lighting mapping table of
section 4.1, giving the lighting conditions and shadows implied by each mood
of the accepted vocabulary. -/
def moodLighting : String → Option (String × String)
  | "serene and cozy" => some ("soft warm daylight", "minimal")
  | "dramatic and tense" => some ("hard low-key lighting", "deep and pronounced")
  | "bright and energetic" => some ("bright even lighting", "crisp and light")
  | "melancholic and quiet" => some ("dim overcast light", "soft and diffuse")
  | _ => none

/-- Whether an optional override value is valid for its vocabulary: unset
fields are always valid, set fields must come from the vocabulary. -/
def validOverrideField (vocab : List String) : Option String → Bool
  | none => true
  | some v => decide (v ∈ vocab)

/-- Whether every set field of an override request is in its field's accepted
vocabulary. -/
def validOverride (o : OverrideRequest) : Bool :=
  validOverrideField angleVocab o.camera_angle &&
  validOverrideField lensVocab o.lens_focal_length &&
  validOverrideField moodVocab o.mood &&
  validOverrideField colorVocab o.color_scheme

/-- Replace a leaf verbatim when an override value is present, keep the prior
value otherwise. -/
def mergeField (cur : Option String) : Option String → Option String
  | none => cur
  | some v => some v

/-- The merger's error taxonomy. -/
inductive MergeError where
  | invalidOverride : MergeError
  | missingBasePrompt : MergeError
deriving DecidableEq

/-- Modelled from the spec: the Coherence Merger of section 4.1.  Each present
override field replaces its leaf verbatim and each absent one keeps the prior
value; when mood is overridden, lighting conditions and shadows are re-derived
from the mood-to-lighting table unless a direct lighting override is present
in the same request, in which case the direct value wins. -/
def mergePrompt (p : StructuredPrompt) (o : OverrideRequest) :
    Except MergeError StructuredPrompt :=
  if validOverride o then
    let cam : CameraParams :=
      { p.camera with
          angle := mergeField p.camera.angle o.camera_angle
          lens_focal_length := mergeField p.camera.lens_focal_length o.lens_focal_length }
    let moodLit : LightingParams :=
      match o.mood with
      | some m =>
        match moodLighting m with
        | some cs => { p.lighting with conditions := some cs.1, shadows := some cs.2 }
        | none => p.lighting
      | none => p.lighting
    let lit : LightingParams :=
      { moodLit with
          conditions := mergeField moodLit.conditions o.lighting_conditions
          shadows := mergeField moodLit.shadows o.lighting_shadows }
    let aes : AestheticsParams :=
      { p.aesthetics with
          mood_atmosphere := mergeField p.aesthetics.mood_atmosphere o.mood
          color_scheme := mergeField p.aesthetics.color_scheme o.color_scheme }
    .ok { camera := cam, lighting := lit, aesthetics := aes }
  else .error .invalidOverride

/-- Modelled from the spec: the tune entry point fails with missingBasePrompt
when no existing structured prompt is supplied. -/
def tuneRequest (base : Option StructuredPrompt) (o : OverrideRequest) :
    Except MergeError StructuredPrompt :=
  match base with
  | none => .error .missingBasePrompt
  | some p => mergePrompt p o

/-! ### Coverage Planner

Modelled from the spec: the planner runs in the FastAPI backend behind the
/api/shot/coverage route and its code is not among the sources; sections 4.2
and 7 of the specification define it. -/

/-- A shot record as returned by the external reasoning service, before ids
are assigned. -/
structure RawShot where
  label : String
  shot_type : String
  description : String
  camera_angle : String
  lens : String
  framing : String
  lighting : String
  purpose : Option String
deriving DecidableEq

/-- A planned coverage shot (type ShotPlan). -/
structure ShotPlan where
  id : Nat
  label : String
  shot_type : String
  description : String
  camera_angle : String
  lens : String
  framing : String
  lighting : String
  purpose : Option String
deriving DecidableEq

/-- The camera-setup signature of a raw shot record. -/
def rawSig (r : RawShot) : String × String × String :=
  (r.shot_type, r.camera_angle, r.framing)

/-- The camera-setup signature of a shot plan. -/
def planSig (p : ShotPlan) : String × String × String :=
  (p.shot_type, p.camera_angle, p.framing)

/-- The fixed camera-angle rotation used to perturb colliding plans. -/
def angleRotation : List String := ["eye-level", "low-angle", "high-angle", "top-down"]

/-- Perturb a shot record whose signature collides with an already used one by
substituting the next unused camera angle from the fixed rotation; when every
rotation angle is also used the record is kept unchanged. -/
def perturbShot (used : List (String × String × String)) (r : RawShot) : RawShot :=
  if rawSig r ∈ used then
    match angleRotation.find? (fun a => decide ((r.shot_type, a, r.framing) ∉ used)) with
    | some a => { r with camera_angle := a }
    | none => r
  else r

/-- Walk the plan set in order, perturbing each later-indexed record that
collides with an earlier accepted signature. -/
def dedupShots : List RawShot → List (String × String × String) → List RawShot
  | [], _ => []
  | r :: rs, used =>
    let r2 := perturbShot used r
    r2 :: dedupShots rs (rawSig r2 :: used)

/-- Assign sequence ids to the accepted records, in generation order. -/
def assignIds : Nat → List RawShot → List ShotPlan
  | _, [] => []
  | i, r :: rs =>
    { id := i, label := r.label, shot_type := r.shot_type, description := r.description,
      camera_angle := r.camera_angle, lens := r.lens, framing := r.framing,
      lighting := r.lighting, purpose := r.purpose } :: assignIds (i + 1) rs

/-- The planner's error taxonomy. -/
inductive PlannerError where
  | emptyScene : PlannerError
  | planningUnavailable : PlannerError
deriving DecidableEq

/-- Modelled from the spec: turn the reasoning service's records into the
final plan list for a clamped shot count, enforcing the distinctness pass. -/
def planFromRaw (numShots : Int) (raw : List RawShot) :
    Except PlannerError (List ShotPlan) :=
  if raw.length < (clampNumShots numShots).toNat then .error .planningUnavailable
  else .ok (assignIds 1 (dedupShots (raw.take ((clampNumShots numShots).toNat)) []))

/-- Modelled from the spec: the Coverage Planner of section 4.2 applied to the
records the reasoning service returned: reject a scene that is empty after
trimming, then clamp the count, truncate, deduplicate and assign ids. -/
def planCoverage (scene : String) (numShots : Int) (raw : List RawShot) :
    Except PlannerError (List ShotPlan) :=
  if trimEmpty scene then .error .emptyScene
  else planFromRaw numShots raw

/-- Modelled from the spec: a full coverage request against the external
reasoning service, which is consulted at most twice (one retry, section 7)
and not at all when the scene is empty after trimming; the second component
counts the external calls made. -/
def runCoverageRequest (scene : String) (numShots : Int)
    (oracle : Nat → Option (List RawShot)) :
    Except PlannerError (List ShotPlan) × Nat :=
  if trimEmpty scene then (.error .emptyScene, 0)
  else
    match oracle 0 with
    | some raw => (planFromRaw numShots raw, 1)
    | none =>
      match oracle 1 with
      | some raw => (planFromRaw numShots raw, 2)
      | none => (.error .planningUnavailable, 2)

/-- Occurrences of a (shot_type, framing) pair among shot records. -/
def groupCount (l : List RawShot) (st fr : String) : Nat :=
  (l.filter (fun r => decide (r.shot_type = st ∧ r.framing = fr))).length

/-- Occurrences of a (shot_type, framing) pair among used signatures. -/
def usedCount (used : List (String × String × String)) (st fr : String) : Nat :=
  (used.filter (fun t => decide (t.1 = st ∧ t.2.2 = fr))).length

/-! ### Coverage Executor

Modelled from the spec: the executor runs in the FastAPI backend; sections
4.3 and 9 of the specification describe it, and section 9 records that the
observed behavior aborts the whole coverage batch on the first render
failure (all-or-nothing), which is what this model implements. -/

/-- Failures of the external render service. -/
inductive RenderError where
  | contentModerated : RenderError
  | serviceError : RenderError
deriving DecidableEq

/-- A successful render: image reference, the structured prompt actually used,
and the request identifier. -/
structure RenderSuccess where
  image_url : String
  structured_prompt : Json
  request_id : String

/-- A coverage result slot (type CoverageShotResult): a plan paired with its
render. -/
structure CoverageShotResult where
  plan : ShotPlan
  image_url : String
  structured_prompt : Json
  request_id : String

/-- Whether an Except value is a success. -/
def isOkB : Except RenderError RenderSuccess → Bool
  | .ok _ => true
  | .error _ => false

/-- Whether an executor outcome is a success. -/
def resultOkB : Except RenderError (List CoverageShotResult) → Bool
  | .ok _ => true
  | .error _ => false

/-- Render every plan in dispatch order, aborting the batch on the first
failure (the observed all-or-nothing behavior of section 9). -/
def renderAll (render : ShotPlan → Except RenderError RenderSuccess) :
    List ShotPlan → Except RenderError (List CoverageShotResult)
  | [] => .ok []
  | p :: ps =>
    match render p with
    | .error e => .error e
    | .ok r =>
      match renderAll render ps with
      | .error e => .error e
      | .ok rest =>
        .ok ({ plan := p, image_url := r.image_url,
               structured_prompt := r.structured_prompt,
               request_id := r.request_id } :: rest)

/-- Insert a result slot into a list kept sorted by plan id. -/
def insertResult (x : CoverageShotResult) : List CoverageShotResult → List CoverageShotResult
  | [] => [x]
  | y :: ys => if x.plan.id ≤ y.plan.id then x :: y :: ys else y :: insertResult x ys

/-- Sort result slots by plan id before handing them back. -/
def sortResults : List CoverageShotResult → List CoverageShotResult
  | [] => []
  | x :: xs => insertResult x (sortResults xs)

/-- Modelled from the spec: the Coverage Executor applied to a batch of plans
and a render outcome per plan: all results re-sorted by plan id on full
success, the first render failure aborting the whole batch otherwise. -/
def executeCoverage (render : ShotPlan → Except RenderError RenderSuccess)
    (plans : List ShotPlan) : Except RenderError (List CoverageShotResult) :=
  match renderAll render plans with
  | .error e => .error e
  | .ok rs => .ok (sortResults rs)

/-! ### Concrete sample data used by witnesses and counterexamples -/

/-- A sample structured prompt with every field populated. -/
def samplePrompt : StructuredPrompt :=
  { camera := { angle := some "eye-level", lens_focal_length := some "35mm",
                depth_of_field := some "shallow", focus := some "subject" }
    lighting := { conditions := some "soft daylight", direction := some "side",
                  shadows := some "minimal" }
    aesthetics := { mood_atmosphere := some "serene and cozy",
                    color_scheme := some "warm, golden tones", aesthetic_score := some 7 } }

/-- An override request that only sets the mood. -/
def moodOnlyOverride : OverrideRequest :=
  { camera_angle := none, lens_focal_length := none, mood := some "dramatic and tense",
    color_scheme := none, lighting_conditions := none, lighting_shadows := none }

/-- The merge of samplePrompt with moodOnlyOverride. -/
def c1MergedPrompt : StructuredPrompt :=
  { camera := samplePrompt.camera
    lighting := { conditions := some "hard low-key lighting", direction := some "side",
                  shadows := some "deep and pronounced" }
    aesthetics := { mood_atmosphere := some "dramatic and tense",
                    color_scheme := some "warm, golden tones", aesthetic_score := some 7 } }

/-- An override request that only sets the camera angle. -/
def angleOnlyOverride : OverrideRequest :=
  { camera_angle := some "low-angle", lens_focal_length := none, mood := none,
    color_scheme := none, lighting_conditions := none, lighting_shadows := none }

/-- The merge of samplePrompt with angleOnlyOverride. -/
def c2MergedPrompt : StructuredPrompt :=
  { camera := { angle := some "low-angle", lens_focal_length := some "35mm",
                depth_of_field := some "shallow", focus := some "subject" }
    lighting := samplePrompt.lighting
    aesthetics := samplePrompt.aesthetics }

/-- A sample raw shot record as the reasoning service might return it. -/
def cexRawShot : RawShot :=
  { label := "Wide master", shot_type := "wide", description := "A wide master of the scene",
    camera_angle := "eye-level", lens := "35mm", framing := "full",
    lighting := "soft key", purpose := none }

/-- Five identical upstream records: more collisions on one
(shot_type, framing) pair than the four-angle rotation can absorb. -/
def cexCoverageRaw : List RawShot := List.replicate 5 cexRawShot

/-- The plan a raw record becomes when given an id and an angle. -/
def planOf (i : Nat) (angle : String) : ShotPlan :=
  { id := i, label := "Wide master", shot_type := "wide",
    description := "A wide master of the scene", camera_angle := angle, lens := "35mm",
    framing := "full", lighting := "soft key", purpose := none }

/-- What the planner produces from cexCoverageRaw: the rotation absorbs the
first four collisions and the fifth duplicates the first signature. -/
def cexCoveragePlans : List ShotPlan :=
  [planOf 1 "eye-level", planOf 2 "low-angle", planOf 3 "high-angle",
   planOf 4 "top-down", planOf 5 "eye-level"]

/-- What the planner produces from a single upstream record. -/
def c3WitnessPlans : List ShotPlan := [planOf 1 "eye-level"]

/-- A sample successful render. -/
def sampleRender : RenderSuccess :=
  { image_url := "https://img.example/1.png", structured_prompt := Json.null,
    request_id := "req-1" }

/-- A coverage batch of four plans with ids 1 to 4. -/
def cexExecPlans : List ShotPlan := assignIds 1 (List.replicate 4 cexRawShot)

/-- A render outcome in which the shot with id 2 fails and every other shot
succeeds. -/
def cexExecRender (p : ShotPlan) : Except RenderError RenderSuccess :=
  if p.id = 2 then .error .serviceError else .ok sampleRender

/-- A render outcome in which every shot succeeds. -/
def okRender (_ : ShotPlan) : Except RenderError RenderSuccess := .ok sampleRender

/-- A sample storyboard shot. -/
def sampleShot : StoryboardShot :=
  { id := "req-1-100", shot_prompt := "A cozy living room", image_url := "https://img.example/1.png",
    structured_prompt := Json.obj (.cons "lighting" (Json.str "warm") .nil),
    createdAt := "2026-01-01T00:00:00Z", request_id := "req-1" }

/-- A second sample storyboard shot. -/
def sampleShot2 : StoryboardShot :=
  { id := "req-2-200", shot_prompt := "A tense hallway", image_url := "https://img.example/2.png",
    structured_prompt := Json.null,
    createdAt := "2026-01-02T00:00:00Z", request_id := "req-2" }

/-- A sample storyboard project. -/
def sampleProject : StoryboardProject :=
  { id := "p1", name := "Quiz show", createdAt := "2026-01-01T00:00:00Z",
    shots := [sampleShot, sampleShot2] }

/-- A second sample storyboard project. -/
def sampleProject2 : StoryboardProject :=
  { id := "p2", name := "Short film", createdAt := "2026-01-03T00:00:00Z",
    shots := [sampleShot2] }

/-- A sample client state in which project p1 is active, viewed and persisted. -/
def sampleState : AppState :=
  { projects := [sampleProject, sampleProject2], activeProjectId := some "p1",
    storyboardsViewProjectId := some "p1", selectedStoryboardShot := some sampleShot,
    storage := [(activeProjectKey, "p1")] }

/-- A sample partial shot update naming only the render-related fields. -/
def samplePatch : ShotPatch :=
  { id := none, shot_prompt := none, image_url := some "https://img.example/3.png",
    structured_prompt := some Json.null, createdAt := none, request_id := some "req-3" }

/-- Delimiter condition after a rendered value: the following input must not
begin with a digit (so numeral parsing stops at the right place). -/
def noDigitHead : List Char → Prop
  | [] => True
  | c :: _ => isDigitChar c = false

/-! ### Lemmas: decimal digits -/

theorem digitVal_digitChar (d : Nat) (h : d < 10) : digitVal (digitChar d) = d := by
  interval_cases d <;> decide

theorem isDigitChar_digitChar (d : Nat) (h : d < 10) : isDigitChar (digitChar d) = true := by
  interval_cases d <;> decide

theorem hexVal_hexDigitChar (d : Nat) (h : d < 16) : hexVal (hexCharOfDigit d) = d := by
  interval_cases d <;> decide

theorem natDigitsRev_digits (fuel : Nat) :
    ∀ n, ∀ c ∈ natDigitsRev fuel n, isDigitChar c = true := by
  induction fuel with
  | zero => intro n c hc; simp [natDigitsRev] at hc
  | succ f ih =>
    intro n c hc
    match n with
    | 0 => simp [natDigitsRev] at hc
    | m + 1 =>
      simp only [natDigitsRev, List.mem_cons] at hc
      rcases hc with rfl | hc
      · exact isDigitChar_digitChar _ (Nat.mod_lt _ (by norm_num))
      · exact ih _ c hc

theorem digitsToNat_reverse_cons (c : Char) (L : List Char) :
    digitsToNat ((c :: L).reverse) = digitsToNat L.reverse * 10 + digitVal c := by
  simp [digitsToNat, List.reverse_cons, List.foldl_append]

theorem digitsToNat_natDigitsRev (fuel : Nat) :
    ∀ n, n ≤ fuel → digitsToNat ((natDigitsRev fuel n).reverse) = n := by
  induction fuel with
  | zero =>
    intro n hn
    interval_cases n
    simp [natDigitsRev, digitsToNat]
  | succ f ih =>
    intro n hn
    match n with
    | 0 => simp [natDigitsRev, digitsToNat]
    | m + 1 =>
      have hdiv : (m + 1) / 10 ≤ f := by
        have := Nat.div_lt_self (Nat.succ_pos m) (by norm_num : 1 < 10)
        omega
      rw [natDigitsRev, digitsToNat_reverse_cons, ih _ hdiv,
        digitVal_digitChar _ (Nat.mod_lt _ (by norm_num))]
      omega

theorem renderNat_digits (n : Nat) : ∀ c ∈ renderNat n, isDigitChar c = true := by
  intro c hc
  unfold renderNat at hc
  by_cases h : n = 0
  · simp [h] at hc; subst hc; decide
  · rw [if_neg h, List.mem_reverse] at hc
    exact natDigitsRev_digits n n c hc

theorem renderNat_ne_nil (n : Nat) : renderNat n ≠ [] := by
  unfold renderNat
  by_cases h : n = 0
  · simp [h]
  · rw [if_neg h]
    match n, h with
    | m + 1, _ => simp [natDigitsRev]

theorem digitsToNat_renderNat (n : Nat) : digitsToNat (renderNat n) = n := by
  unfold renderNat
  by_cases h : n = 0
  · simp [h]; decide
  · rw [if_neg h]
    exact digitsToNat_natDigitsRev n n le_rfl

/-! ### Lemmas: digit runs -/

theorem takeDigits_no_digit (rest : List Char) (h : noDigitHead rest) :
    takeDigits rest = ([], rest) := by
  match rest with
  | [] => rfl
  | c :: cs =>
    simp only [noDigitHead] at h
    simp [takeDigits, h]

theorem takeDigits_append (ds rest : List Char) (hds : ∀ c ∈ ds, isDigitChar c = true)
    (hrest : noDigitHead rest) : takeDigits (ds ++ rest) = (ds, rest) := by
  induction ds with
  | nil => simpa using takeDigits_no_digit rest hrest
  | cons d ds ih =>
    have hd : isDigitChar d = true := hds d (by simp)
    have ih2 := ih (fun c hc => hds c (by simp [hc]))
    simp [takeDigits, hd, ih2]

/-! ### Lemmas: string literal round trip -/

theorem escapeChar_length_pos (c : Char) : 1 ≤ (escapeChar c).length := by
  unfold escapeChar
  split
  · simp
  · split
    · simp
    · split
      · simp
      · split
        · simp
        · split
          · simp
          · split
            · simp
            · split
              · simp
              · split
                · simp
                · simp

theorem length_le_escapeChars (cs : List Char) : cs.length ≤ (escapeChars cs).length := by
  induction cs with
  | nil => simp [escapeChars]
  | cons c cs ih =>
    have := escapeChar_length_pos c
    simp only [escapeChars, List.length_append, List.length_cons]
    omega

theorem parseStringBody_escape :
    ∀ (cs : List Char) (fuel : Nat) (rest : List Char), cs.length < fuel →
      parseStringBody fuel (escapeChars cs ++ '"' :: rest) = some (cs, rest) := by
  intro cs
  induction cs with
  | nil =>
    intro fuel rest hf
    obtain ⟨f, rfl⟩ : ∃ f, fuel = f + 1 := ⟨fuel - 1, by omega⟩
    rfl
  | cons c cs ih =>
    intro fuel rest hf
    obtain ⟨f, rfl⟩ : ∃ f, fuel = f + 1 := ⟨fuel - 1, by omega⟩
    have hlt : cs.length < f := by simp at hf; omega
    have ih2 := ih f rest hlt
    rw [show escapeChars (c :: cs) ++ '"' :: rest
        = escapeChar c ++ (escapeChars cs ++ '"' :: rest) by simp [escapeChars]]
    by_cases h1 : c = '"'
    · subst h1
      show (parseStringBody f (escapeChars cs ++ '"' :: rest)).map
          (fun r => ('"' :: r.1, r.2)) = some ('"' :: cs, rest)
      rw [ih2]
      rfl
    · by_cases h2 : c = '\\'
      · subst h2
        show (parseStringBody f (escapeChars cs ++ '"' :: rest)).map
            (fun r => ('\\' :: r.1, r.2)) = some ('\\' :: cs, rest)
        rw [ih2]
        rfl
      · by_cases h3 : c = '\n'
        · subst h3
          show (parseStringBody f (escapeChars cs ++ '"' :: rest)).map
              (fun r => ('\n' :: r.1, r.2)) = some ('\n' :: cs, rest)
          rw [ih2]
          rfl
        · by_cases h4 : c = '\r'
          · subst h4
            show (parseStringBody f (escapeChars cs ++ '"' :: rest)).map
                (fun r => ('\r' :: r.1, r.2)) = some ('\r' :: cs, rest)
            rw [ih2]
            rfl
          · by_cases h5 : c = '\t'
            · subst h5
              show (parseStringBody f (escapeChars cs ++ '"' :: rest)).map
                  (fun r => ('\t' :: r.1, r.2)) = some ('\t' :: cs, rest)
              rw [ih2]
              rfl
            · by_cases h6 : c.toNat = 8
              · have hc : Char.ofNat 8 = c := by rw [← h6, Char.ofNat_toNat]
                rw [show escapeChar c = ['\\', 'b'] by
                  simp [escapeChar, h1, h2, h3, h4, h5, h6]]
                show (parseStringBody f (escapeChars cs ++ '"' :: rest)).map
                    (fun r => (Char.ofNat 8 :: r.1, r.2)) = some (c :: cs, rest)
                rw [ih2]
                show some (Char.ofNat 8 :: cs, rest) = some (c :: cs, rest)
                rw [hc]
              · by_cases h7 : c.toNat = 12
                · have hc : Char.ofNat 12 = c := by rw [← h7, Char.ofNat_toNat]
                  rw [show escapeChar c = ['\\', 'f'] by
                    simp [escapeChar, h1, h2, h3, h4, h5, h6, h7]]
                  show (parseStringBody f (escapeChars cs ++ '"' :: rest)).map
                      (fun r => (Char.ofNat 12 :: r.1, r.2)) = some (c :: cs, rest)
                  rw [ih2]
                  show some (Char.ofNat 12 :: cs, rest) = some (c :: cs, rest)
                  rw [hc]
                · by_cases h8 : c.toNat < 32
                  · have hdiv : c.toNat / 16 < 16 := by omega
                    have hmod : c.toNat % 16 < 16 := Nat.mod_lt _ (by norm_num)
                    have hc : hexQuad '0' '0' (hexCharOfDigit (c.toNat / 16))
                        (hexCharOfDigit (c.toNat % 16)) = c := by
                      unfold hexQuad
                      rw [hexVal_hexDigitChar _ hdiv, hexVal_hexDigitChar _ hmod]
                      rw [show hexVal '0' = 0 from rfl]
                      rw [show 0 * 4096 + 0 * 256 + c.toNat / 16 * 16 + c.toNat % 16
                          = c.toNat by omega]
                      exact Char.ofNat_toNat c
                    rw [show escapeChar c = ['\\', 'u', '0', '0',
                        hexCharOfDigit (c.toNat / 16), hexCharOfDigit (c.toNat % 16)] by
                      simp [escapeChar, h1, h2, h3, h4, h5, h6, h7, h8]]
                    show (parseStringBody f (escapeChars cs ++ '"' :: rest)).map
                        (fun r => (hexQuad '0' '0' (hexCharOfDigit (c.toNat / 16))
                          (hexCharOfDigit (c.toNat % 16)) :: r.1, r.2)) = some (c :: cs, rest)
                    rw [ih2]
                    show some (hexQuad '0' '0' (hexCharOfDigit (c.toNat / 16))
                        (hexCharOfDigit (c.toNat % 16)) :: cs, rest) = some (c :: cs, rest)
                    rw [hc]
                  · rw [show escapeChar c = [c] by
                      simp [escapeChar, h1, h2, h3, h4, h5, h6, h7, h8]]
                    show psbCons (parseStringBody f) c (escapeChars cs ++ '"' :: rest)
                        = some (c :: cs, rest)
                    unfold psbCons
                    rw [if_neg h1, if_neg h2, ih2]
                    rfl

/-! ### Lemmas: value round trip -/

theorem noDigitHead_cons (c : Char) (cs : List Char) (h : isDigitChar c = false) :
    noDigitHead (c :: cs) := h

theorem digit_not_key (c : Char) (h : isDigitChar c = true) :
    ¬ c = 'n' ∧ ¬ c = 't' ∧ ¬ c = 'f' ∧ ¬ c = '"' ∧ ¬ c = '-' := by
  refine ⟨fun he => ?_, fun he => ?_, fun he => ?_, fun he => ?_, fun he => ?_⟩ <;>
    (rw [he] at h; exact absurd h (by decide))

theorem renderJson_head (j : Json) : ∃ c cr, renderJson j = c :: cr ∧ ¬ c = ']' := by
  cases j with
  | null => exact ⟨'n', _, rfl, by decide⟩
  | bool b => cases b with
    | true => exact ⟨'t', _, rfl, by decide⟩
    | false => exact ⟨'f', _, rfl, by decide⟩
  | num n => cases n with
    | ofNat m =>
      cases hB : renderNat m with
      | nil => exact absurd hB (renderNat_ne_nil m)
      | cons d0 ds =>
        refine ⟨d0, ds, ?_, ?_⟩
        · show renderNat m = d0 :: ds
          exact hB
        · have hd : isDigitChar d0 = true := renderNat_digits m d0 (by rw [hB]; simp)
          intro he
          rw [he] at hd
          exact absurd hd (by decide)
    | negSucc m => exact ⟨'-', _, rfl, by decide⟩
  | str s => exact ⟨'"', _, rfl, by decide⟩
  | arr xs => cases xs with
    | nil => exact ⟨'[', _, rfl, by decide⟩
    | cons x xs2 => exact ⟨'[', _, rfl, by decide⟩
  | obj fs => cases fs with
    | nil => exact ⟨lcurl, _, rfl, by decide⟩
    | cons k v fs2 => exact ⟨lcurl, _, rfl, by decide⟩

mutual

theorem parseVal_render (j : Json) : ∀ fuel, jsonFuel j ≤ fuel → ∀ rest, noDigitHead rest →
    parseVal fuel (renderJson j ++ rest) = some (j, rest) := by
  intro fuel hfe rest hrest
  cases j with
  | null =>
    have h1 : 1 ≤ fuel := le_trans (by simp [jsonFuel]) hfe
    obtain ⟨f, rfl⟩ : ∃ f, fuel = f + 1 := ⟨fuel - 1, by omega⟩
    rfl
  | bool b =>
    have h1 : 1 ≤ fuel := le_trans (by simp [jsonFuel]) hfe
    obtain ⟨f, rfl⟩ : ∃ f, fuel = f + 1 := ⟨fuel - 1, by omega⟩
    cases b with
    | true => rfl
    | false => rfl
  | num n =>
    have h1 : 1 ≤ fuel := le_trans (by simp [jsonFuel]) hfe
    obtain ⟨f, rfl⟩ : ∃ f, fuel = f + 1 := ⟨fuel - 1, by omega⟩
    cases n with
    | ofNat m =>
      cases hB : renderNat m with
      | nil => exact absurd hB (renderNat_ne_nil m)
      | cons d0 ds =>
        have hd0 : isDigitChar d0 = true := renderNat_digits m d0 (by rw [hB]; simp)
        obtain ⟨hn, ht, hf2, hq, hm⟩ := digit_not_key d0 hd0
        have hdig : ∀ c ∈ d0 :: ds, isDigitChar c = true := by
          rw [← hB]; exact renderNat_digits m
        show parseVal (f + 1) (renderNat m ++ rest) = some (Json.num (Int.ofNat m), rest)
        rw [hB, List.cons_append]
        show parseValStep (parseItems f) (parseMembers f)
          d0 (ds ++ rest) = some (Json.num (Int.ofNat m), rest)
        unfold parseValStep
        rw [if_neg hn, if_neg ht, if_neg hf2, if_neg hq, if_neg hm, if_pos hd0]
        unfold pvNum
        rw [← List.cons_append, ← hB,
          takeDigits_append (renderNat m) rest (renderNat_digits m) hrest]
        show some (Json.num (Int.ofNat (digitsToNat (renderNat m))), rest)
          = some (Json.num (Int.ofNat m), rest)
        rw [digitsToNat_renderNat]
    | negSucc m =>
      cases hB : renderNat (m + 1) with
      | nil => exact absurd hB (renderNat_ne_nil (m + 1))
      | cons d0 ds =>
        show pvNeg (renderNat (m + 1) ++ rest) = some (Json.num (Int.negSucc m), rest)
        unfold pvNeg
        rw [takeDigits_append (renderNat (m + 1)) rest (renderNat_digits (m + 1)) hrest,
          hB]
        show some (Json.num (-(Int.ofNat (digitsToNat (d0 :: ds)))), rest)
          = some (Json.num (Int.negSucc m), rest)
        rw [← hB, digitsToNat_renderNat]
        rfl
  | str s =>
    have h1 : 1 ≤ fuel := le_trans (by simp [jsonFuel]) hfe
    obtain ⟨f, rfl⟩ : ∃ f, fuel = f + 1 := ⟨fuel - 1, by omega⟩
    have hin : renderString s ++ rest = '"' :: (escapeChars s.data ++ '"' :: rest) := by
      simp [renderString]
    show parseVal (f + 1) (renderString s ++ rest) = some (Json.str s, rest)
    rw [hin]
    show pvString (escapeChars s.data ++ '"' :: rest) = some (Json.str s, rest)
    unfold pvString
    have hlen : s.data.length < (escapeChars s.data ++ '"' :: rest).length := by
      have := length_le_escapeChars s.data
      simp only [List.length_append, List.length_cons]
      omega
    rw [parseStringBody_escape s.data _ rest hlen]
    rfl
  | arr xs =>
    cases xs with
    | nil =>
      have h1 : 1 ≤ fuel := le_trans (by simp [jsonFuel, jsonListFuel]) hfe
      obtain ⟨f, rfl⟩ : ∃ f, fuel = f + 1 := ⟨fuel - 1, by omega⟩
      rfl
    | cons x xs2 =>
      have h2 : 1 + (1 + jsonFuel x + jsonListFuel xs2) ≤ fuel := by
        simpa [jsonFuel, jsonListFuel] using hfe
      obtain ⟨f, rfl⟩ : ∃ f, fuel = f + 1 := ⟨fuel - 1, by omega⟩
      have hin : renderJson (.arr (.cons x xs2)) ++ rest
          = '[' :: (renderJson x ++ (renderArrTail xs2 ++ rest)) := by
        simp [renderJson]
      rw [hin]
      obtain ⟨c0, cr, hhead, hne⟩ := renderJson_head x
      rw [hhead, List.cons_append]
      show pvArr (parseItems f)
        (c0 :: (cr ++ (renderArrTail xs2 ++ rest))) = some (Json.arr (JsonList.cons x xs2), rest)
      rw [pvArr, if_neg hne]
      unfold pvArrNE
      rw [← List.cons_append, ← hhead,
        parseItems_render x xs2 f (by omega) rest hrest]
  | obj fs =>
    cases fs with
    | nil =>
      have h1 : 1 ≤ fuel := le_trans (by simp [jsonFuel, jsonFieldsFuel]) hfe
      obtain ⟨f, rfl⟩ : ∃ f, fuel = f + 1 := ⟨fuel - 1, by omega⟩
      rfl
    | cons k v fs2 =>
      have h2 : 1 + (1 + jsonFuel v + jsonFieldsFuel fs2) ≤ fuel := by
        simpa [jsonFuel, jsonFieldsFuel] using hfe
      obtain ⟨f, rfl⟩ : ∃ f, fuel = f + 1 := ⟨fuel - 1, by omega⟩
      have hin : renderJson (.obj (.cons k v fs2)) ++ rest
          = lcurl :: (renderString k ++ (':' :: (renderJson v ++ (renderFieldsTail fs2 ++ rest)))) := by
        simp [renderJson]
      rw [hin]
      show pvObj (parseMembers f)
        (renderString k ++ (':' :: (renderJson v ++ (renderFieldsTail fs2 ++ rest))))
        = some (Json.obj (JsonFields.cons k v fs2), rest)
      show pvObjNE (parseMembers f)
        (renderString k ++ (':' :: (renderJson v ++ (renderFieldsTail fs2 ++ rest))))
        = some (Json.obj (JsonFields.cons k v fs2), rest)
      unfold pvObjNE
      rw [parseMembers_render k v fs2 f (by omega) rest hrest]
termination_by sizeOf j

theorem parseItems_render (x : Json) (xs : JsonList) : ∀ fuel,
    1 + jsonFuel x + jsonListFuel xs ≤ fuel → ∀ rest, noDigitHead rest →
    parseItems fuel (renderJson x ++ (renderArrTail xs ++ rest)) = some (.cons x xs, rest) := by
  intro fuel hfe rest hrest
  obtain ⟨g, rfl⟩ : ∃ g, fuel = g + 1 := ⟨fuel - 1, by omega⟩
  have hndh : noDigitHead (renderArrTail xs ++ rest) := by
    cases xs with
    | nil => exact noDigitHead_cons _ _ (by decide)
    | cons y ys => exact noDigitHead_cons _ _ (by decide)
  show parseItemsStep (parseVal g) (parseItems g)
    (renderJson x ++ (renderArrTail xs ++ rest)) = some (JsonList.cons x xs, rest)
  unfold parseItemsStep
  rw [parseVal_render x g (by omega) (renderArrTail xs ++ rest) hndh]
  show piAfterVal (parseItems g) x (renderArrTail xs ++ rest)
    = some (JsonList.cons x xs, rest)
  cases xs with
  | nil => rfl
  | cons y ys =>
    rw [show renderArrTail (.cons y ys) ++ rest
      = ',' :: ((renderJson y ++ renderArrTail ys) ++ rest) by simp [renderArrTail]]
    rw [piAfterVal, if_pos rfl, List.append_assoc,
      parseItems_render y ys g (by simp [jsonListFuel] at hfe; omega) rest hrest]
termination_by 1 + sizeOf x + sizeOf xs

theorem parseMembers_render (k : String) (v : Json) (fs : JsonFields) : ∀ fuel,
    1 + jsonFuel v + jsonFieldsFuel fs ≤ fuel → ∀ rest, noDigitHead rest →
    parseMembers fuel (renderString k ++ (':' :: (renderJson v ++ (renderFieldsTail fs ++ rest))))
      = some (.cons k v fs, rest) := by
  intro fuel hfe rest hrest
  obtain ⟨g, rfl⟩ : ∃ g, fuel = g + 1 := ⟨fuel - 1, by omega⟩
  have hin : renderString k ++ (':' :: (renderJson v ++ (renderFieldsTail fs ++ rest)))
      = '"' :: (escapeChars k.data ++ '"' :: (':' :: (renderJson v ++ (renderFieldsTail fs ++ rest)))) := by
    simp [renderString]
  rw [hin]
  show pmKey (parseVal g) (parseMembers g)
    (escapeChars k.data ++ '"' :: (':' :: (renderJson v ++ (renderFieldsTail fs ++ rest))))
    = some (JsonFields.cons k v fs, rest)
  unfold pmKey
  have hlen : k.data.length
      < (escapeChars k.data ++ '"' :: (':' :: (renderJson v ++ (renderFieldsTail fs ++ rest)))).length := by
    have := length_le_escapeChars k.data
    simp only [List.length_append, List.length_cons]
    omega
  rw [parseStringBody_escape k.data _ _ hlen]
  show pmAfterColon (parseVal g) (parseMembers g) k.data
    (renderJson v ++ (renderFieldsTail fs ++ rest)) = some (JsonFields.cons k v fs, rest)
  unfold pmAfterColon
  have hndh : noDigitHead (renderFieldsTail fs ++ rest) := by
    cases fs with
    | nil => exact noDigitHead_cons _ _ (by decide)
    | cons k2 v2 fs2 => exact noDigitHead_cons _ _ (by decide)
  rw [parseVal_render v g (by omega) (renderFieldsTail fs ++ rest) hndh]
  show pmAfterVal (parseMembers g) k.data v (renderFieldsTail fs ++ rest)
    = some (JsonFields.cons k v fs, rest)
  cases fs with
  | nil => rfl
  | cons k2 v2 fs2 =>
    rw [show renderFieldsTail (.cons k2 v2 fs2) ++ rest
      = ',' :: ((renderString k2 ++ ':' :: (renderJson v2 ++ renderFieldsTail fs2)) ++ rest) by
        simp [renderFieldsTail]]
    rw [pmAfterVal, if_pos rfl]
    rw [show (renderString k2 ++ ':' :: (renderJson v2 ++ renderFieldsTail fs2)) ++ rest
      = renderString k2 ++ (':' :: (renderJson v2 ++ (renderFieldsTail fs2 ++ rest))) by simp]
    rw [parseMembers_render k2 v2 fs2 g (by simp [jsonFieldsFuel] at hfe; omega) rest hrest]
termination_by 1 + sizeOf v + sizeOf fs

end

/-! ### Lemmas: fuel bounds and the full round trip -/

mutual

theorem jsonFuel_le (j : Json) : jsonFuel j ≤ (renderJson j).length := by
  cases j with
  | null => simp [jsonFuel, renderJson]
  | bool b => cases b <;> simp [jsonFuel, renderJson]
  | num n =>
    cases n with
    | ofNat m =>
      have h1 : 0 < (renderNat m).length := List.length_pos.mpr (renderNat_ne_nil m)
      simp only [jsonFuel, renderJson, renderInt]
      omega
    | negSucc m => simp [jsonFuel, renderJson, renderInt]
  | str s => simp [jsonFuel, renderJson, renderString]
  | arr xs =>
    cases xs with
    | nil => simp [jsonFuel, jsonListFuel, renderJson]
    | cons x xs2 =>
      have h1 := jsonFuel_le x
      have h2 := jsonListFuel_lt xs2
      simp only [jsonFuel, jsonListFuel, renderJson, List.length_cons, List.length_append]
      omega
  | obj fs =>
    cases fs with
    | nil => simp [jsonFuel, jsonFieldsFuel, renderJson]
    | cons k v fs2 =>
      have h1 := jsonFuel_le v
      have h2 := jsonFieldsFuel_lt fs2
      simp only [jsonFuel, jsonFieldsFuel, renderJson, List.length_cons, List.length_append]
      omega
termination_by sizeOf j

theorem jsonListFuel_lt (xs : JsonList) : jsonListFuel xs + 1 ≤ (renderArrTail xs).length := by
  cases xs with
  | nil => simp [jsonListFuel, renderArrTail]
  | cons x xs2 =>
    have h1 := jsonFuel_le x
    have h2 := jsonListFuel_lt xs2
    simp only [jsonListFuel, renderArrTail, List.length_cons, List.length_append]
    omega
termination_by sizeOf xs

theorem jsonFieldsFuel_lt (fs : JsonFields) :
    jsonFieldsFuel fs + 1 ≤ (renderFieldsTail fs).length := by
  cases fs with
  | nil => simp [jsonFieldsFuel, renderFieldsTail]
  | cons k v fs2 =>
    have h1 := jsonFuel_le v
    have h2 := jsonFieldsFuel_lt fs2
    simp only [jsonFieldsFuel, renderFieldsTail, List.length_cons, List.length_append]
    omega
termination_by sizeOf fs

end

theorem parseJson_stringify (j : Json) : parseJson (stringifyJson j) = some j := by
  unfold parseJson stringifyJson
  have h := parseVal_render j ((renderJson j).length + 1)
    (le_trans (jsonFuel_le j) (Nat.le_succ _)) [] trivial
  rw [List.append_nil] at h
  show (match parseVal ((renderJson j).length + 1) (renderJson j) with
    | some (j2, []) => some j2
    | _ => none) = some j
  rw [h]

/-! ### Lemmas: project encoding and storage round trip -/

theorem decodeShot_encodeShot (s : StoryboardShot) : decodeShot (encodeShot s) = some s := rfl

theorem decodeShots_encodeShots (l : List StoryboardShot) :
    decodeShots (encodeShots l) = some l := by
  induction l with
  | nil => rfl
  | cons s rest ih => simp [encodeShots, decodeShots, decodeShot_encodeShot, ih]

theorem decodeProject_encodeProject (p : StoryboardProject) :
    decodeProject (encodeProject p) = some p := by
  show (match decodeShots (encodeShots p.shots) with
    | some l => some { id := p.id, name := p.name, createdAt := p.createdAt, shots := l }
    | none => none) = some p
  rw [decodeShots_encodeShots]

theorem decodeProjectList_encodeProjectList (ps : List StoryboardProject) :
    decodeProjectList (encodeProjectList ps) = some ps := by
  induction ps with
  | nil => rfl
  | cons p rest ih =>
    simp [encodeProjectList, decodeProjectList, decodeProject_encodeProject, ih]

theorem decodeProjects_encodeProjects (ps : List StoryboardProject) :
    decodeProjects (encodeProjects ps) = some ps :=
  decodeProjectList_encodeProjectList ps

theorem lsGet_lsSet (st : Storage) (k v : String) : lsGet (lsSet st k v) k = some v := by
  simp [lsGet, lsSet]

theorem stringify_encodeProjects_ne_empty (ps : List StoryboardProject) :
    stringifyJson (encodeProjects ps) ≠ "" := by
  intro h
  have hdata := congrArg String.data h
  have harr : ∃ t, renderJson (encodeProjects ps) = '[' :: t := by
    show ∃ t, renderJson (.arr (encodeProjectList ps)) = '[' :: t
    cases encodeProjectList ps with
    | nil => exact ⟨[']'], rfl⟩
    | cons x xs => exact ⟨_, rfl⟩
  obtain ⟨t, ht⟩ := harr
  rw [show (stringifyJson (encodeProjects ps)).data = renderJson (encodeProjects ps)
    from rfl, ht] at hdata
  simp at hdata

/-! ### Claim theorems -/

/-- C8: for every list of storyboard projects and every prior storage state,
loading after saving returns the same list: loadProjectsFromStorage after
saveProjectsToStorage round-trips the stored data unchanged. -/
theorem claim_c8_storage_roundtrip (ps : List StoryboardProject) (st : Storage) :
    loadProjectsFromStorage (saveProjectsToStorage ps st) = some ps := by
  unfold loadProjectsFromStorage saveProjectsToStorage
  rw [lsGet_lsSet]
  show (if stringifyJson (encodeProjects ps) = "" then none
    else match parseJson (stringifyJson (encodeProjects ps)) with
      | some j => decodeProjects j
      | none => none) = some ps
  rw [if_neg (stringify_encodeProjects_ne_empty ps), parseJson_stringify]
  exact decodeProjects_encodeProjects ps

/-- C5: an integral requested shot count is clamped into 1..12, values below
the range yield 1, values above yield 12, in-range values pass through, and no
integral value is ever rejected (the handler is total and always produces an
in-range count). -/
theorem claim_c5_numshots_clamped (n : Int) :
    coverageNumShotsUpdate (some n) = clampNumShots n ∧
    (1 ≤ clampNumShots n ∧ clampNumShots n ≤ 12) ∧
    (n < 1 → clampNumShots n = 1) ∧
    (12 < n → clampNumShots n = 12) ∧
    (1 ≤ n → n ≤ 12 → clampNumShots n = n) := by
  unfold coverageNumShotsUpdate clampNumShots
  refine ⟨rfl, ⟨?_, ?_⟩, ?_, ?_, ?_⟩ <;> (intros; omega)

/-- Witness for C5: a request of 0 is clamped to 1 and a request of 15 to 12. -/
theorem claim_c5_numshots_clamped_witness :
    coverageNumShotsUpdate (some 0) = 1 ∧ coverageNumShotsUpdate (some 15) = 12 :=
  ⟨(claim_c5_numshots_clamped 0).1.trans
      ((claim_c5_numshots_clamped 0).2.2.1 (by norm_num)),
   (claim_c5_numshots_clamped 15).1.trans
      ((claim_c5_numshots_clamped 15).2.2.2.1 (by norm_num))⟩

/-- C7: a coverage request whose scene text is empty after trimming fails with
the emptyScene error before any call to the external reasoning service. -/
theorem claim_c7_empty_scene (scene : String) (numShots : Int)
    (oracle : Nat → Option (List RawShot)) (h : trimEmpty scene = true) :
    runCoverageRequest scene numShots oracle = (Except.error PlannerError.emptyScene, 0) := by
  unfold runCoverageRequest
  rw [if_pos h]

/-- Witness for C7: a whitespace-only scene is rejected with no external call. -/
theorem claim_c7_empty_scene_witness :
    runCoverageRequest "  " 4 (fun _ => none) = (Except.error PlannerError.emptyScene, 0) :=
  claim_c7_empty_scene "  " 4 (fun _ => none) (by decide)

theorem backend_ne_moderation (status : Nat) (text : String) :
    backendErrorMessage status text ≠ moderationMessage := by
  intro h
  have hd := congrArg String.data h
  have h3 : (some 'B' : Option Char) = some 'F' := congrArg List.head? hd
  simp at h3

/-- C6: the error handler classifies a failed response as content-moderated,
producing the distinct reword-suggestion message, exactly when the response
has status 422 and its body carries the moderation signal; otherwise it
produces the generic backend-error message, which is never the moderation
message. -/
theorem claim_c6_moderation_iff (status : Nat) (text : String) :
    handleFiboError status text = moderationMessage ↔
      (status = 422 ∧ containsModerationSignal text = true) := by
  constructor
  · intro heq
    by_contra hcon
    have hcond : ¬ ((decide (status = 422) && containsModerationSignal text) = true) := by
      simp only [Bool.and_eq_true, decide_eq_true_eq]
      exact hcon
    unfold handleFiboError at heq
    rw [if_neg hcond] at heq
    exact backend_ne_moderation status text heq
  · rintro ⟨h1, h2⟩
    have hcond : (decide (status = 422) && containsModerationSignal text) = true := by
      simp [h1, h2]
    unfold handleFiboError
    rw [if_pos hcond]

/-- Witness for C6: a 422 response whose body mentions content moderation is
classified as moderated, and a 500 response with the same body is not. -/
theorem claim_c6_moderation_iff_witness :
    handleFiboError 422 "Blocked by Content Moderation rules" = moderationMessage ∧
    ¬ handleFiboError 500 "Blocked by Content Moderation rules" = moderationMessage :=
  ⟨(claim_c6_moderation_iff 422 "Blocked by Content Moderation rules").mpr
      ⟨rfl, by decide⟩,
   fun h => by
    have := (claim_c6_moderation_iff 500 "Blocked by Content Moderation rules").mp h
    simp at this⟩

theorem lsGet_lsRemove (st : Storage) (k : String) : lsGet (lsRemove st k) k = none := by
  induction st with
  | nil => rfl
  | cons e rest ih =>
    unfold lsRemove at ih ⊢
    rw [List.filter_cons]
    by_cases he : e.1 = k
    · rw [if_neg (by simp [he])]
      exact ih
    · rw [if_pos (by simp [he])]
      unfold lsGet
      rw [if_neg he]
      exact ih

/-- C9: after deleteProject, the projects list holds no project with the
deleted id, the active and storyboard-view selections are cleared exactly when
they referenced the deleted id and are untouched otherwise, the storyboard
shot overlay is closed, and the persisted active-project key is removed
exactly when it stored the deleted id. -/
theorem claim_c9_delete_project (s : AppState) (projectId : String) :
    (∀ p ∈ (deleteProject s projectId).projects, p.id ≠ projectId) ∧
    (deleteProject s projectId).activeProjectId
      = (if s.activeProjectId = some projectId then none else s.activeProjectId) ∧
    (deleteProject s projectId).storyboardsViewProjectId
      = (if s.storyboardsViewProjectId = some projectId then none
         else s.storyboardsViewProjectId) ∧
    (deleteProject s projectId).selectedStoryboardShot = none ∧
    (lsGet s.storage activeProjectKey = some projectId →
      lsGet (deleteProject s projectId).storage activeProjectKey = none) ∧
    (lsGet s.storage activeProjectKey ≠ some projectId →
      (deleteProject s projectId).storage = s.storage) := by
  refine ⟨?_, rfl, rfl, rfl, ?_, ?_⟩
  · intro p hp
    have := List.mem_filter.mp hp
    simpa using this.2
  · intro h
    show lsGet (if lsGet s.storage activeProjectKey = some projectId
      then lsRemove s.storage activeProjectKey else s.storage) activeProjectKey = none
    rw [if_pos h]
    exact lsGet_lsRemove s.storage activeProjectKey
  · intro h
    show (if lsGet s.storage activeProjectKey = some projectId
      then lsRemove s.storage activeProjectKey else s.storage) = s.storage
    rw [if_neg h]

/-- Witness for C9: deleting the active, viewed and persisted project p1 of the
sample state clears every selection and the persisted key. -/
theorem claim_c9_delete_project_witness :
    (∀ p ∈ (deleteProject sampleState "p1").projects, p.id ≠ "p1") ∧
    lsGet (deleteProject sampleState "p1").storage activeProjectKey = none ∧
    (deleteProject sampleState "p1").selectedStoryboardShot = none :=
  ⟨(claim_c9_delete_project sampleState "p1").1,
   (claim_c9_delete_project sampleState "p1").2.2.2.2.1 rfl,
   (claim_c9_delete_project sampleState "p1").2.2.2.1⟩

/-- C10: addShotToProject, updateShotInProject and removeShotFromProject leave
every project other than the target unchanged in place; update and remove
leave every shot of the target project with a different shot id in place; and
a partial update preserves every field it does not name. -/
theorem claim_c10_shot_ops_frame (projects : List StoryboardProject)
    (activeId : Option String) (shot : StoryboardShot) (projectIdArg : Option String)
    (projectId shotId : String) (patch : ShotPatch) (s0 : StoryboardShot) :
    (∀ (i : Nat) (p : StoryboardProject), projects[i]? = some p →
      ¬ some p.id = resolveTargetId projectIdArg activeId →
      (addShotToProject projects activeId shot projectIdArg)[i]? = some p) ∧
    (∀ (i : Nat) (p : StoryboardProject), projects[i]? = some p → p.id ≠ projectId →
      (updateShotInProject projects projectId shotId patch)[i]? = some p) ∧
    (∀ (i : Nat) (p : StoryboardProject), projects[i]? = some p → p.id ≠ projectId →
      (removeShotFromProject projects projectId shotId)[i]? = some p) ∧
    (∀ (i : Nat) (p : StoryboardProject) (j : Nat) (s2 : StoryboardShot),
      projects[i]? = some p → p.shots[j]? = some s2 → s2.id ≠ shotId →
      ∃ p2, (updateShotInProject projects projectId shotId patch)[i]? = some p2 ∧
        p2.shots[j]? = some s2) ∧
    (∀ (i : Nat) (p : StoryboardProject) (j : Nat) (s2 : StoryboardShot),
      projects[i]? = some p → p.shots[j]? = some s2 → s2.id ≠ shotId →
      ∃ p2, (removeShotFromProject projects projectId shotId)[i]? = some p2 ∧
        s2 ∈ p2.shots) ∧
    ((patch.id = none → (applyPatch s0 patch).id = s0.id) ∧
     (patch.shot_prompt = none → (applyPatch s0 patch).shot_prompt = s0.shot_prompt) ∧
     (patch.image_url = none → (applyPatch s0 patch).image_url = s0.image_url) ∧
     (patch.structured_prompt = none →
       (applyPatch s0 patch).structured_prompt = s0.structured_prompt) ∧
     (patch.createdAt = none → (applyPatch s0 patch).createdAt = s0.createdAt) ∧
     (patch.request_id = none → (applyPatch s0 patch).request_id = s0.request_id)) := by
  refine ⟨?_, ?_, ?_, ?_, ?_, ?_⟩
  · intro i p hi hne
    unfold addShotToProject
    rw [List.getElem?_map, hi]
    show some (if some p.id = resolveTargetId projectIdArg activeId
      then { p with shots := p.shots ++ [shot] } else p) = some p
    rw [if_neg hne]
  · intro i p hi hne
    unfold updateShotInProject
    rw [List.getElem?_map, hi]
    show some (if p.id ≠ projectId then p
      else { p with shots := p.shots.map (fun s =>
        if s.id = shotId then applyPatch s patch else s) }) = some p
    rw [if_pos hne]
  · intro i p hi hne
    unfold removeShotFromProject
    rw [List.getElem?_map, hi]
    show some (if p.id = projectId
      then { p with shots := p.shots.filter (fun s => decide (s.id ≠ shotId)) } else p)
      = some p
    rw [if_neg hne]
  · intro i p j s2 hi hj hs
    unfold updateShotInProject
    rw [List.getElem?_map, hi]
    by_cases hp : p.id ≠ projectId
    · refine ⟨p, ?_, hj⟩
      show some (if p.id ≠ projectId then p else _) = some p
      rw [if_pos hp]
    · refine ⟨{ p with shots := p.shots.map (fun s =>
        if s.id = shotId then applyPatch s patch else s) }, ?_, ?_⟩
      · show some (if p.id ≠ projectId then p else { p with shots := p.shots.map (fun s =>
          if s.id = shotId then applyPatch s patch else s) }) = some _
        rw [if_neg hp]
      · show (p.shots.map (fun s => if s.id = shotId then applyPatch s patch else s))[j]?
          = some s2
        rw [List.getElem?_map, hj]
        show some (if s2.id = shotId then applyPatch s2 patch else s2) = some s2
        rw [if_neg hs]
  · intro i p j s2 hi hj hs
    unfold removeShotFromProject
    rw [List.getElem?_map, hi]
    by_cases hp : p.id = projectId
    · refine ⟨{ p with shots := p.shots.filter (fun s => decide (s.id ≠ shotId)) }, ?_, ?_⟩
      · show some (if p.id = projectId
          then { p with shots := p.shots.filter (fun s => decide (s.id ≠ shotId)) } else p)
          = some _
        rw [if_pos hp]
      · show s2 ∈ p.shots.filter (fun s => decide (s.id ≠ shotId))
        rw [List.mem_filter]
        exact ⟨List.getElem?_mem hj, by simpa using hs⟩
    · refine ⟨p, ?_, List.getElem?_mem hj⟩
      show some (if p.id = projectId
        then { p with shots := p.shots.filter (fun s => decide (s.id ≠ shotId)) } else p)
        = some p
      rw [if_neg hp]
  · refine ⟨fun h => ?_, fun h => ?_, fun h => ?_, fun h => ?_, fun h => ?_, fun h => ?_⟩ <;>
      (unfold applyPatch; rw [h]; rfl)

/-- Witness for C10: updating a shot of project p1 leaves project p2 in place,
leaves the sibling shot of p1 in place, and keeps the fields the partial
update does not name. -/
theorem claim_c10_shot_ops_frame_witness :
    (updateShotInProject [sampleProject, sampleProject2] "p1" "req-1-100" samplePatch)[1]?
      = some sampleProject2 ∧
    (∃ p2, (updateShotInProject [sampleProject, sampleProject2] "p1" "req-1-100"
        samplePatch)[0]? = some p2 ∧ p2.shots[1]? = some sampleShot2) ∧
    (applyPatch sampleShot samplePatch).shot_prompt = sampleShot.shot_prompt :=
  ⟨(claim_c10_shot_ops_frame [sampleProject, sampleProject2] none sampleShot none
      "p1" "req-1-100" samplePatch sampleShot).2.1 1 sampleProject2 rfl (by decide),
   (claim_c10_shot_ops_frame [sampleProject, sampleProject2] none sampleShot none
      "p1" "req-1-100" samplePatch sampleShot).2.2.2.1 0 sampleProject 1 sampleShot2
      rfl rfl (by decide),
   (claim_c10_shot_ops_frame [sampleProject, sampleProject2] none sampleShot none
      "p1" "req-1-100" samplePatch sampleShot).2.2.2.2.2.2.1 rfl⟩

/-- C1: when the merge succeeds and the override sets a mood listed in the
fixed mood-to-lighting table, the merged lighting conditions and shadows equal
the table's entry for that mood, unless the same request also carries a direct
lighting override, in which case the explicit lighting value wins. -/
theorem claim_c1_mood_lighting (p : StructuredPrompt) (o : OverrideRequest)
    (p2 : StructuredPrompt) (m cond shad : String)
    (hmerge : mergePrompt p o = Except.ok p2) (hmood : o.mood = some m)
    (htable : moodLighting m = some (cond, shad)) :
    (o.lighting_conditions = none → p2.lighting.conditions = some cond) ∧
    (∀ v, o.lighting_conditions = some v → p2.lighting.conditions = some v) ∧
    (o.lighting_shadows = none → p2.lighting.shadows = some shad) ∧
    (∀ v, o.lighting_shadows = some v → p2.lighting.shadows = some v) := by
  unfold mergePrompt at hmerge
  by_cases hv : validOverride o = true
  · rw [if_pos hv] at hmerge
    simp only [hmood, htable] at hmerge
    have hp2 := (Except.ok.injEq _ _).mp hmerge
    refine ⟨fun h => ?_, fun v h => ?_, fun h => ?_, fun v h => ?_⟩ <;>
      (rw [← hp2]; simp [mergeField, h])
  · rw [if_neg hv] at hmerge
    cases hmerge

/-- Witness for C1: overriding only the mood of the sample prompt re-derives
the lighting conditions and shadows from the table's entry for that mood. -/
theorem claim_c1_mood_lighting_witness :
    mergePrompt samplePrompt moodOnlyOverride = Except.ok c1MergedPrompt ∧
    c1MergedPrompt.lighting.conditions = some "hard low-key lighting" ∧
    c1MergedPrompt.lighting.shadows = some "deep and pronounced" :=
  ⟨rfl,
   (claim_c1_mood_lighting samplePrompt moodOnlyOverride c1MergedPrompt
      "dramatic and tense" "hard low-key lighting" "deep and pronounced" rfl rfl rfl).1 rfl,
   (claim_c1_mood_lighting samplePrompt moodOnlyOverride c1MergedPrompt
      "dramatic and tense" "hard low-key lighting" "deep and pronounced"
      rfl rfl rfl).2.2.1 rfl⟩

/-- C2: merging any structured prompt with the empty override request returns
it unchanged, and whenever a merge succeeds, each of the four override fields
present replaces its leaf verbatim while each absent one leaves its leaf at
the prior value. -/
theorem claim_c2_merge_identity_replacement :
    (∀ p : StructuredPrompt, mergePrompt p emptyOverride = Except.ok p) ∧
    (∀ (p : StructuredPrompt) (o : OverrideRequest) (p2 : StructuredPrompt),
      mergePrompt p o = Except.ok p2 →
      ((o.camera_angle = none → p2.camera.angle = p.camera.angle) ∧
       (∀ v, o.camera_angle = some v → p2.camera.angle = some v) ∧
       (o.lens_focal_length = none →
         p2.camera.lens_focal_length = p.camera.lens_focal_length) ∧
       (∀ v, o.lens_focal_length = some v → p2.camera.lens_focal_length = some v) ∧
       (o.mood = none → p2.aesthetics.mood_atmosphere = p.aesthetics.mood_atmosphere) ∧
       (∀ v, o.mood = some v → p2.aesthetics.mood_atmosphere = some v) ∧
       (o.color_scheme = none → p2.aesthetics.color_scheme = p.aesthetics.color_scheme) ∧
       (∀ v, o.color_scheme = some v → p2.aesthetics.color_scheme = some v))) := by
  constructor
  · intro p
    rfl
  · intro p o p2 hmerge
    unfold mergePrompt at hmerge
    by_cases hv : validOverride o = true
    · rw [if_pos hv] at hmerge
      have hp2 := (Except.ok.injEq _ _).mp hmerge
      refine ⟨fun h => ?_, fun v h => ?_, fun h => ?_, fun v h => ?_,
        fun h => ?_, fun v h => ?_, fun h => ?_, fun v h => ?_⟩ <;>
        (rw [← hp2]; simp [mergeField, h])
    · rw [if_neg hv] at hmerge
      cases hmerge

/-- Witness for C2: the identity law at the sample prompt, and a camera-angle
override replacing exactly that leaf. -/
theorem claim_c2_merge_identity_replacement_witness :
    mergePrompt samplePrompt emptyOverride = Except.ok samplePrompt ∧
    c2MergedPrompt.camera.angle = some "low-angle" ∧
    c2MergedPrompt.aesthetics.color_scheme = samplePrompt.aesthetics.color_scheme :=
  ⟨claim_c2_merge_identity_replacement.1 samplePrompt,
   (claim_c2_merge_identity_replacement.2 samplePrompt angleOnlyOverride
      c2MergedPrompt rfl).2.1 "low-angle" rfl,
   (claim_c2_merge_identity_replacement.2 samplePrompt angleOnlyOverride
      c2MergedPrompt rfl).2.2.2.2.2.2.1 rfl⟩

/-! ### Lemmas: coverage planning -/

theorem dedupShots_length (rs : List RawShot) :
    ∀ used, (dedupShots rs used).length = rs.length := by
  induction rs with
  | nil => intro used; rfl
  | cons r rs ih => intro used; simp [dedupShots, ih]

theorem assignIds_length (l : List RawShot) : ∀ i, (assignIds i l).length = l.length := by
  induction l with
  | nil => intro i; rfl
  | cons r rs ih => intro i; simp [assignIds, ih]

theorem assignIds_map_id (l : List RawShot) :
    ∀ i, (assignIds i l).map (fun p => p.id) = List.range' i l.length := by
  induction l with
  | nil => intro i; rfl
  | cons r rs ih => intro i; simp [assignIds, ih, List.range'_succ]

theorem assignIds_map_sig (l : List RawShot) :
    ∀ i, (assignIds i l).map planSig = l.map rawSig := by
  induction l with
  | nil => intro i; rfl
  | cons r rs ih => intro i; simp [assignIds, ih, planSig, rawSig]

theorem perturbShot_type_framing (used : List (String × String × String)) (r : RawShot) :
    (perturbShot used r).shot_type = r.shot_type ∧ (perturbShot used r).framing = r.framing := by
  unfold perturbShot
  by_cases h : rawSig r ∈ used
  · cases hf : angleRotation.find? (fun a => decide ((r.shot_type, a, r.framing) ∉ used)) with
    | none => rw [if_pos h]; exact ⟨rfl, rfl⟩
    | some a => rw [if_pos h]; exact ⟨rfl, rfl⟩
  · rw [if_neg h]; exact ⟨rfl, rfl⟩

theorem perturbShot_not_used (used : List (String × String × String)) (r : RawShot)
    (hcount : usedCount used r.shot_type r.framing ≤ 3) :
    rawSig (perturbShot used r) ∉ used := by
  unfold perturbShot
  by_cases h : rawSig r ∈ used
  · rw [if_pos h]
    have hex : ∃ a ∈ angleRotation, decide ((r.shot_type, a, r.framing) ∉ used) = true := by
      by_contra hno
      push_neg at hno
      have hall : ∀ a ∈ angleRotation, (r.shot_type, a, r.framing) ∈ used := by
        intro a ha
        have := hno a ha
        simpa [not_not] using this
      have hnodup : (angleRotation.map (fun a => (r.shot_type, a, r.framing))).Nodup := by
        refine List.Nodup.map ?_ (by decide)
        intro a b hab
        exact congrArg (fun t => t.2.1) hab
      have hsub : angleRotation.map (fun a => (r.shot_type, a, r.framing))
          ⊆ used.filter (fun t => decide (t.1 = r.shot_type ∧ t.2.2 = r.framing)) := by
        intro t ht
        simp only [List.mem_map] at ht
        obtain ⟨a, ha, rfl⟩ := ht
        rw [List.mem_filter]
        exact ⟨hall a ha, by simp⟩
      have hlen := (List.subperm_of_subset hnodup hsub).length_le
      have h4 : (angleRotation.map (fun a => (r.shot_type, a, r.framing))).length = 4 := by
        simp [angleRotation]
      unfold usedCount at hcount
      omega
    obtain ⟨a, ha, hpa⟩ := hex
    have hsome : (angleRotation.find?
        (fun x => decide ((r.shot_type, x, r.framing) ∉ used))).isSome :=
      List.find?_isSome.mpr ⟨a, ha, hpa⟩
    obtain ⟨b, hb⟩ := Option.isSome_iff_exists.mp hsome
    rw [hb]
    have hpb := List.find?_some hb
    simp only [decide_eq_true_eq] at hpb
    simpa [rawSig] using hpb
  · rw [if_neg h]; exact h

theorem dedupShots_nodup : ∀ (rs : List RawShot) (used : List (String × String × String)),
    (∀ st fr, groupCount rs st fr + usedCount used st fr ≤ 4) →
    ((dedupShots rs used).map rawSig).Nodup ∧
      ∀ t ∈ (dedupShots rs used).map rawSig, t ∉ used := by
  intro rs
  induction rs with
  | nil =>
    intro used h
    refine ⟨by simp [dedupShots], ?_⟩
    intro t ht
    simp [dedupShots] at ht
  | cons r rs ih =>
    intro used h
    have hgrp : 1 ≤ groupCount (r :: rs) r.shot_type r.framing := by
      unfold groupCount
      rw [List.filter_cons_of_pos (by simp)]
      simp
    have hcnt : usedCount used r.shot_type r.framing ≤ 3 := by
      have := h r.shot_type r.framing
      omega
    have hnu := perturbShot_not_used used r hcnt
    obtain ⟨hst, hfr⟩ := perturbShot_type_framing used r
    have hdd : dedupShots (r :: rs) used
        = perturbShot used r :: dedupShots rs (rawSig (perturbShot used r) :: used) := rfl
    have h2 : ∀ st fr, groupCount rs st fr
        + usedCount (rawSig (perturbShot used r) :: used) st fr ≤ 4 := by
      intro st fr
      have hh := h st fr
      by_cases hcase : r.shot_type = st ∧ r.framing = fr
      · have hg : groupCount (r :: rs) st fr = groupCount rs st fr + 1 := by
          unfold groupCount
          rw [List.filter_cons_of_pos (by simp [hcase.1, hcase.2])]
          simp
        have hu : usedCount (rawSig (perturbShot used r) :: used) st fr
            = usedCount used st fr + 1 := by
          unfold usedCount
          rw [List.filter_cons_of_pos
            (by simp only [rawSig, hst, hfr, decide_eq_true_eq]; exact ⟨hcase.1, hcase.2⟩)]
          simp
        omega
      · have hgle : groupCount rs st fr ≤ groupCount (r :: rs) st fr := by
          unfold groupCount
          rw [List.filter_cons]
          split
          · simp
          · exact le_refl _
        have hu : usedCount (rawSig (perturbShot used r) :: used) st fr
            = usedCount used st fr := by
          unfold usedCount
          rw [List.filter_cons_of_neg
            (by simp only [rawSig, hst, hfr, decide_eq_true_eq]; exact hcase)]
        omega
    obtain ⟨ihn, ihin⟩ := ih (rawSig (perturbShot used r) :: used) h2
    rw [hdd]
    constructor
    · rw [List.map_cons]
      refine List.nodup_cons.mpr ⟨?_, ihn⟩
      intro hmem
      exact (ihin _ hmem) (List.mem_cons_self _ _)
    · rw [List.map_cons]
      intro t ht
      rcases List.mem_cons.mp ht with rfl | ht2
      · exact hnu
      · intro hin
        exact (ihin t ht2) (List.mem_cons_of_mem _ hin)

/-- C3 (amended): when planning succeeds for a requested count k in 1..12, the
planner returns exactly k plans with ids 1..k in generation order, and the
returned plans have pairwise distinct (shot_type, camera_angle, framing)
triples provided no (shot_type, framing) pair occurs in more than four of the
k records taken from the reasoning service. -/
theorem claim_c3_plan_count_distinct (scene : String) (numShots : Int)
    (raw : List RawShot) (plans : List ShotPlan)
    (h1 : 1 ≤ numShots) (h12 : numShots ≤ 12)
    (hok : planCoverage scene numShots raw = Except.ok plans) :
    plans.length = numShots.toNat ∧
    plans.map (fun p => p.id) = List.range' 1 numShots.toNat ∧
    ((∀ st fr, groupCount (raw.take numShots.toNat) st fr ≤ 4) →
      (plans.map planSig).Nodup) := by
  unfold planCoverage planFromRaw at hok
  by_cases hempty : trimEmpty scene = true
  · rw [if_pos hempty] at hok
    simp at hok
  · rw [if_neg hempty] at hok
    have hclamp : clampNumShots numShots = numShots := by unfold clampNumShots; omega
    rw [hclamp] at hok
    by_cases hlen : raw.length < numShots.toNat
    · rw [if_pos hlen] at hok
      simp at hok
    · rw [if_neg hlen] at hok
      have hplans : plans = assignIds 1 (dedupShots (raw.take numShots.toNat) []) :=
        ((Except.ok.injEq _ _).mp hok).symm
      have htk : (raw.take numShots.toNat).length = numShots.toNat := by
        rw [List.length_take]
        omega
      refine ⟨?_, ?_, ?_⟩
      · rw [hplans, assignIds_length, dedupShots_length, htk]
      · rw [hplans, assignIds_map_id, dedupShots_length, htk]
      · intro hgrp
        rw [hplans, assignIds_map_sig]
        exact (dedupShots_nodup (raw.take numShots.toNat) []
          (fun st fr => by have := hgrp st fr; simp only [usedCount, List.filter_nil,
            List.length_nil]; omega)).1

/-- Witness for C3: a one-shot request over a single upstream record yields
exactly one plan with id 1. -/
theorem claim_c3_plan_count_distinct_witness :
    c3WitnessPlans.length = (1 : Int).toNat ∧
    c3WitnessPlans.map (fun p => p.id) = List.range' 1 (1 : Int).toNat :=
  ⟨(claim_c3_plan_count_distinct "a scene" 1 [cexRawShot] c3WitnessPlans
      (by norm_num) (by norm_num) rfl).1,
   (claim_c3_plan_count_distinct "a scene" 1 [cexRawShot] c3WitnessPlans
      (by norm_num) (by norm_num) rfl).2.1⟩

/-- Counterexample for C3 as stated: with five identical upstream records at
k = 5, the four-angle rotation is exhausted and the planner accepts a plan set
in which two plans share the same (shot_type, camera_angle, framing) triple. -/
theorem claim_c3_counterexample :
    planCoverage "the scene" 5 cexCoverageRaw = Except.ok cexCoveragePlans ∧
    ¬ (cexCoveragePlans.map planSig).Nodup := by
  exact ⟨rfl, by decide⟩

/-! ### Lemmas: coverage execution -/

theorem renderAll_ok (render : ShotPlan → Except RenderError RenderSuccess) :
    ∀ plans : List ShotPlan, (∀ p ∈ plans, isOkB (render p) = true) →
      ∃ rs, renderAll render plans = Except.ok rs ∧ rs.length = plans.length := by
  intro plans
  induction plans with
  | nil => intro _; exact ⟨[], rfl, rfl⟩
  | cons p ps ih =>
    intro h
    have hp := h p (List.mem_cons_self _ _)
    obtain ⟨rs, hrs, hlen⟩ := ih (fun q hq => h q (List.mem_cons_of_mem _ hq))
    cases hr : render p with
    | error e => rw [hr] at hp; simp [isOkB] at hp
    | ok r =>
      refine ⟨⟨p, r.image_url, r.structured_prompt, r.request_id⟩ :: rs, ?_, ?_⟩
      · unfold renderAll
        rw [hr, hrs]
      · simp [hlen]

theorem renderAll_err (render : ShotPlan → Except RenderError RenderSuccess) :
    ∀ plans : List ShotPlan, (¬ ∀ p ∈ plans, isOkB (render p) = true) →
      ∃ e, renderAll render plans = Except.error e := by
  intro plans
  induction plans with
  | nil => intro h; exact absurd (by intro p hp; simp at hp) h
  | cons p ps ih =>
    intro h
    cases hr : render p with
    | error e =>
      refine ⟨e, ?_⟩
      unfold renderAll
      rw [hr]
    | ok r =>
      have hps : ¬ ∀ q ∈ ps, isOkB (render q) = true := by
        intro hall
        refine h ?_
        intro q hq
        rcases List.mem_cons.mp hq with rfl | hq2
        · rw [hr]; rfl
        · exact hall q hq2
      obtain ⟨e, he⟩ := ih hps
      refine ⟨e, ?_⟩
      unfold renderAll
      rw [hr, he]

theorem mem_insertResult (x b : CoverageShotResult) :
    ∀ l : List CoverageShotResult, b ∈ insertResult x l ↔ b = x ∨ b ∈ l := by
  intro l
  induction l with
  | nil => simp [insertResult]
  | cons y ys ih =>
    rw [insertResult]
    by_cases hxy : x.plan.id ≤ y.plan.id
    · rw [if_pos hxy]
      simp
    · rw [if_neg hxy]
      simp only [List.mem_cons, ih]
      tauto

theorem length_insertResult (x : CoverageShotResult) :
    ∀ l : List CoverageShotResult, (insertResult x l).length = l.length + 1 := by
  intro l
  induction l with
  | nil => rfl
  | cons y ys ih =>
    rw [insertResult]
    by_cases hxy : x.plan.id ≤ y.plan.id
    · rw [if_pos hxy]
      simp
    · rw [if_neg hxy]
      simp [ih]

theorem length_sortResults : ∀ l : List CoverageShotResult,
    (sortResults l).length = l.length := by
  intro l
  induction l with
  | nil => rfl
  | cons x xs ih =>
    rw [sortResults, length_insertResult, ih]
    simp

theorem sorted_insertResult (x : CoverageShotResult) :
    ∀ l : List CoverageShotResult,
      l.Sorted (fun a b => a.plan.id ≤ b.plan.id) →
      (insertResult x l).Sorted (fun a b => a.plan.id ≤ b.plan.id) := by
  intro l
  induction l with
  | nil => intro _; simp [insertResult]
  | cons y ys ih =>
    intro h
    rw [insertResult]
    by_cases hxy : x.plan.id ≤ y.plan.id
    · rw [if_pos hxy]
      rw [List.sorted_cons]
      refine ⟨?_, h⟩
      intro b hb
      rcases List.mem_cons.mp hb with rfl | hb2
      · exact hxy
      · have hy := (List.sorted_cons.mp h).1 b hb2
        omega
    · rw [if_neg hxy]
      rw [List.sorted_cons] at h ⊢
      obtain ⟨hy, hys⟩ := h
      refine ⟨?_, ih hys⟩
      intro b hb
      rcases (mem_insertResult x b ys).mp hb with rfl | hmem
      · omega
      · exact hy b hmem

theorem sorted_sortResults : ∀ l : List CoverageShotResult,
    (sortResults l).Sorted (fun a b => a.plan.id ≤ b.plan.id) := by
  intro l
  induction l with
  | nil => simp [sortResults]
  | cons x xs ih =>
    rw [sortResults]
    exact sorted_insertResult x (sortResults xs) ih

/-- C4 (amended): the Coverage Executor is all-or-nothing: when every shot of
the batch renders successfully it returns exactly one slot per plan, re-sorted
by ShotPlan id; when any shot fails it aborts the whole batch and returns a
single batch-level error, producing no per-shot slots. -/
theorem claim_c4_executor_all_or_nothing (plans : List ShotPlan)
    (render : ShotPlan → Except RenderError RenderSuccess) :
    ((∀ p ∈ plans, isOkB (render p) = true) →
      ∃ slots, executeCoverage render plans = Except.ok slots ∧
        slots.length = plans.length ∧
        slots.Sorted (fun a b => a.plan.id ≤ b.plan.id)) ∧
    ((¬ ∀ p ∈ plans, isOkB (render p) = true) →
      ∃ e, executeCoverage render plans = Except.error e) := by
  constructor
  · intro h
    obtain ⟨rs, hrs, hlen⟩ := renderAll_ok render plans h
    refine ⟨sortResults rs, ?_, ?_, sorted_sortResults rs⟩
    · unfold executeCoverage
      rw [hrs]
    · rw [length_sortResults, hlen]
  · intro h
    obtain ⟨e, he⟩ := renderAll_err render plans h
    refine ⟨e, ?_⟩
    unfold executeCoverage
    rw [he]

/-- Witness for C4 (amended): a batch of four plans that all render
successfully yields a successful executor outcome. -/
theorem claim_c4_executor_all_or_nothing_witness :
    resultOkB (executeCoverage okRender cexExecPlans) = true := by
  obtain ⟨slots, h1, _, _⟩ :=
    (claim_c4_executor_all_or_nothing cexExecPlans okRender).1 (fun p _ => rfl)
  rw [h1]
  rfl

/-- Counterexample for C4 as stated: when shot id 2 of 4 fails at render time,
the executor returns a batch-level error rather than four ordered slots with a
per-shot failure marker. -/
theorem claim_c4_counterexample :
    executeCoverage cexExecRender cexExecPlans = Except.error RenderError.serviceError ∧
    resultOkB (executeCoverage cexExecRender cexExecPlans) = false :=
  ⟨rfl, rfl⟩
